import Mathlib

/-!
Verification of the organic-typography core (SpatialIndex.js, SemanticField.js,
OrganicLayout.js) against its natural-language specification.

The JavaScript sources are shallowly embedded below.  Conventions used
throughout the embedding:

* JS numbers are modelled by `ℚ`.  A value that may be `NaN`, `undefined` or of
  a non-number type is modelled by `Option ℚ` (with `none` standing for the
  invalid value); the JS `typeof x !== 'number' || isNaN(x)` guards become
  pattern matches on the option.
* `Math.sqrt(dx*dx+dy*dy) <= r` is modelled as `dx^2 + dy^2 ≤ r^2`, which is
  equivalent whenever `r ≥ 0` (all call sites validate the radius first);
  similarly `dist < c` becomes `dx^2 + dy^2 < c^2` for the positive literal
  thresholds 15, 25, 30.
* `Math.sin`/`Math.cos` are transcendental; where their exact value matters the
  definitions take an explicit function argument `jsSin : ℚ → ℚ` standing for
  `Math.sin`, and the theorems quantify over it (every proved property holds
  for every such function, in particular for the real sine).  `Math.PI` is the
  IEEE-754 double constant, an exact rational, reproduced below.
* JS `Map`s are modelled as association lists `List (κ × ν)` in insertion
  order: `set` updates in place or appends, `delete` removes the entry,
  iteration order is list order — exactly the observable JS `Map` semantics.
* JS string ids such as `node_${k}` are modelled by the `k : ℕ` (the prefix is
  constant, so the map `k ↦ "node_" ++ toString k` is injective); an absent or
  falsy id is `none : Option ℕ`.  Words (tokens of the analysed text) are
  modelled as their lists of character codes, `List ℕ`.
* `Math.random()`-dependent choices inside the growth engine (the perturbed
  direction, the branch draw, and the best direction/interest found by the
  trigonometric scans in `createSemanticBranch` / the avoidance scan) are taken
  as explicit parameters (`RngChoices`), so theorems quantify over every
  possible draw.
-/

/-- JS truthy-default `x || d` for numbers: `0` (and `NaN`, handled separately)
is falsy, every other number is returned unchanged. -/
def jsOr (x d : ℚ) : ℚ := if x = 0 then d else x

/-- JS `Math.round` (round half toward positive infinity). -/
def jsRound (q : ℚ) : ℤ := ⌊q + 1/2⌋

/-- The integers from `a` to `b` inclusive (empty when `b < a`); models a JS
`for (let i = a; i <= b; i++)` loop. -/
def intRange (a b : ℤ) : List ℤ := (List.range (b + 1 - a).toNat).map (fun (n : ℕ) => a + (n : ℤ))

/-- `Map.prototype.get`, returning the value stored at the first (unique)
matching key of an insertion-ordered association list. -/
def mapGet {κ ν : Type} [DecidableEq κ] (m : List (κ × ν)) (k : κ) : Option ν :=
  (m.find? (fun p => p.1 = k)).map (·.2)

/-- `Map.prototype.has`. -/
def mapHas {κ ν : Type} [DecidableEq κ] (m : List (κ × ν)) (k : κ) : Bool :=
  (mapGet m k).isSome

/-- `Map.prototype.set`: update the entry in place when the key is present,
append a fresh entry otherwise. -/
def mapSet {κ ν : Type} [DecidableEq κ] (m : List (κ × ν)) (k : κ) (v : ν) : List (κ × ν) :=
  match m with
  | [] => [(k, v)]
  | (k', v') :: rest => if k' = k then (k, v) :: rest else (k', v') :: mapSet rest k v

/-- `Map.prototype.delete` (by key). -/
def mapDelete {κ ν : Type} [DecidableEq κ] (m : List (κ × ν)) (k : κ) : List (κ × ν) :=
  m.filter (fun p => ¬ p.1 = k)

/-- Stable insertion into a descending-sorted list; auxiliary for `sortByDesc`. -/
def insertByDesc {α : Type} (key : α → ℚ) (a : α) : List α → List α
  | [] => [a]
  | b :: bs => if key b < key a then a :: b :: bs else b :: insertByDesc key a bs

/-- Stable sort in descending `key` order; models the JS
`entries.sort((a, b) => keyB - keyA)` comparator (JS `Array.prototype.sort` is
stable). -/
def sortByDesc {α : Type} (key : α → ℚ) (l : List α) : List α :=
  l.foldr (insertByDesc key) []

/-- `Math.PI`: the IEEE-754 double closest to π, an exact rational
(884279719003555 / 2^48). -/
def piQ : ℚ := 884279719003555 / 281474976710656

/-! ## SpatialIndex.js -/

/-- An item held by the spatial index.  Only the fields the index reads are
modelled: `id` (JS string id, `none` when absent/falsy) and `position`
(`none` when the `position` object is missing; each coordinate is `none` when
it is not a number or is `NaN`). -/
structure Item where
  id : Option ℕ
  pos : Option (Option ℚ × Option ℚ)
deriving DecidableEq

/-- The position of an item when it is a well-formed pair of numbers. -/
def Item.validPos (it : Item) : Option (ℚ × ℚ) :=
  match it.pos with
  | some (some x, some y) => some (x, y)
  | _ => none

/-- State of `class SpatialIndex` (constructor fields).  `maxCacheSize` is the
literal 100 and is inlined at its use sites. -/
structure SpatialIndex where
  width : ℚ
  height : ℚ
  cellSize : ℚ
  gridWidth : ℤ
  gridHeight : ℤ
  grid : List ((ℤ × ℤ) × List Item)
  itemCount : ℕ
  queryCache : List ((ℤ × ℤ × ℤ) × List Item)
  cacheAccessOrder : List (ℤ × ℤ × ℤ)
deriving DecidableEq

/-- `new SpatialIndex(width, height, cellSize)` — the constructor coerces the
arguments with `Math.max(1, Number(·) || default)`. -/
def mkSpatialIndex (width height cellSize : ℚ) : SpatialIndex :=
  let w := max 1 (jsOr width 800)
  let h := max 1 (jsOr height 600)
  let cs := max 1 (jsOr cellSize 50)
  { width := w, height := h, cellSize := cs,
    gridWidth := ⌈w / cs⌉, gridHeight := ⌈h / cs⌉,
    grid := [], itemCount := 0, queryCache := [], cacheAccessOrder := [] }

/-- `getGridKey(x, y)` for numeric coordinates: floor-divide by the cell size
and clamp into the grid rectangle.  (The `isNaN` guard path returning `'0,0'`
is unreachable here because both coordinates are genuine numbers.) -/
def getGridKey (s : SpatialIndex) (x y : ℚ) : ℤ × ℤ :=
  (max 0 (min (s.gridWidth - 1) ⌊x / s.cellSize⌋),
   max 0 (min (s.gridHeight - 1) ⌊y / s.cellSize⌋))

/-- All indexed items, in grid-cell insertion order (the order
`for (const items of this.grid.values())` iterates them). -/
def allItems (s : SpatialIndex) : List Item := s.grid.flatMap (·.2)

/-- `findItemById(id)`: first indexed item with the given id. -/
def findItemById (s : SpatialIndex) (i : ℕ) : Option Item :=
  (allItems s).find? (fun it => it.id = some ↑i)

/-- `clearQueryCache()`. -/
def clearQueryCache (s : SpatialIndex) : SpatialIndex :=
  { s with queryCache := [], cacheAccessOrder := [] }

/-- One grid cell after `remove(id)` filtered out the matching items. -/
def removeFromCell (i : ℕ) (cell : List Item) : List Item :=
  cell.filter (fun it => ¬ it.id = some i)

/-- Effect of `remove(id)` on a single grid entry: the matching items are
spliced out and the cell is deleted when the removals emptied it (a cell that
was already empty is left alone, matching the in-loop `items.length === 0`
check that only runs after a removal). -/
def removeCellStep (i : ℕ) (kc : (ℤ × ℤ) × List Item) : Option ((ℤ × ℤ) × List Item) :=
  let items := removeFromCell i kc.2
  if items = [] ∧ kc.2 ≠ [] then none else some (kc.1, items)

/-- `remove(id)`: removes every item with the given id from every cell,
deletes cells emptied by the removal, decrements `itemCount` once per removed
item (the per-item `Math.max(0, itemCount - 1)` is truncated subtraction),
and clears the query cache when anything was removed. -/
def remove (s : SpatialIndex) (i : ℕ) : Bool × SpatialIndex :=
  let removedCount := ((allItems s).filter (fun it => it.id = some ↑i)).length
  let s' : SpatialIndex :=
    { s with grid := s.grid.filterMap (removeCellStep i),
             itemCount := s.itemCount - removedCount }
  if removedCount = 0 then (false, s') else (true, clearQueryCache s')

/-- `insert(item)`: validates the position, performs the upsert-by-id removal,
appends the item to its (clamped) grid cell, bumps `itemCount` and clears the
query cache.  Returns `false` without mutation on an invalid position. -/
def SpatialIndex.insert (s : SpatialIndex) (item : Item) : Bool × SpatialIndex :=
  match item.pos with
  | none => (false, s)
  | some (ox, oy) =>
    match ox, oy with
    | some x, some y =>
      let s1 := match item.id with
        | some i => if (findItemById s i).isSome then (remove s i).2 else s
        | none => s
      let key := getGridKey s1 x y
      let cell := (mapGet s1.grid key).getD []
      let s2 : SpatialIndex :=
        { s1 with grid := mapSet s1.grid key (cell ++ [item]),
                  itemCount := s1.itemCount + 1 }
      (true, clearQueryCache s2)
    | _, _ => (false, s)

/-- `performQuery(x, y, radius)`: scan the grid cells of the clamped bounding
square and filter by exact Euclidean distance (`sqrt(dx²+dy²) ≤ radius`,
expressed with squares; the caller guarantees `radius ≥ 0`).  An item whose
`position` is missing — or whose coordinates are not numbers, which makes the
JS distance `NaN` and the comparison false — is skipped. -/
def performQuery (s : SpatialIndex) (x y r : ℚ) : List Item :=
  let gridRadius := ⌈r / s.cellSize⌉
  let centerX := ⌊x / s.cellSize⌋
  let centerY := ⌊y / s.cellSize⌋
  let minX := max 0 (centerX - gridRadius)
  let maxX := min (s.gridWidth - 1) (centerX + gridRadius)
  let minY := max 0 (centerY - gridRadius)
  let maxY := min (s.gridHeight - 1) (centerY + gridRadius)
  (intRange minX maxX).flatMap fun gx =>
    (intRange minY maxY).flatMap fun gy =>
      match mapGet s.grid (gx, gy) with
      | some items =>
        items.filter fun it =>
          match it.validPos with
          | some p => decide ((p.1 - x)^2 + (p.2 - y)^2 ≤ r^2)
          | none => false
      | none => []

/-- `updateCacheAccess(cacheKey)`: move the key to the most-recent end of the
LRU order (`indexOf`/`splice` removes the first occurrence if present). -/
def updateCacheAccess (s : SpatialIndex) (key : ℤ × ℤ × ℤ) : SpatialIndex :=
  { s with cacheAccessOrder := s.cacheAccessOrder.erase key ++ [key] }

/-- `addToCache(cacheKey, results)`: when the cache is at capacity (100),
shift the oldest key off the access order and delete it from the cache, then
store the new entry and push its key. -/
def addToCache (s : SpatialIndex) (key : ℤ × ℤ × ℤ) (results : List Item) : SpatialIndex :=
  let s1 :=
    if 100 ≤ s.queryCache.length then
      match s.cacheAccessOrder with
      | [] => s
      | oldest :: rest =>
        { s with queryCache := mapDelete s.queryCache oldest, cacheAccessOrder := rest }
    else s
  { s1 with queryCache := mapSet s1.queryCache key results,
            cacheAccessOrder := s1.cacheAccessOrder ++ [key] }

/-- `query(position, radius)`: validate the inputs, then serve from the LRU
cache under the rounded key or run `performQuery` and cache the result. -/
def query (s : SpatialIndex) (pos : Option (Option ℚ × Option ℚ)) (radius : Option ℚ) :
    List Item × SpatialIndex :=
  match pos with
  | none => ([], s)
  | some (ox, oy) =>
    match ox, oy with
    | some x, some y =>
      match radius with
      | none => ([], s)
      | some r =>
        if r < 0 then ([], s)
        else
          let cacheKey := (jsRound x, jsRound y, jsRound r)
          match mapGet s.queryCache cacheKey with
          | some res => (res, updateCacheAccess s cacheKey)
          | none =>
            let results := performQuery s x y r
            (results, addToCache s cacheKey results)
    | _, _ => ([], s)

/-- `update(item)`: remove the old copy by id, then insert at the new
position; not atomic. -/
def update (s : SpatialIndex) (item : Item) : Bool × SpatialIndex :=
  match item.id with
  | none => (false, s)
  | some i => SpatialIndex.insert (remove s i).2 item

/-- `clear()`. -/
def clearIndex (s : SpatialIndex) : SpatialIndex :=
  clearQueryCache { s with grid := [], itemCount := 0 }

/-- `cleanup()`: drop empty grid cells; when more than half the cache capacity
is used, clear the query cache wholesale while re-installing only the 50
most-recently-used keys into the access order (note: the cached values
themselves are not re-installed — the `Map` stays empty). -/
def cleanupIndex (s : SpatialIndex) : SpatialIndex :=
  let s1 : SpatialIndex := { s with grid := s.grid.filter (fun kc => ¬ kc.2 = []) }
  if 50 < s1.queryCache.length then
    { s1 with queryCache := [],
              cacheAccessOrder := s1.cacheAccessOrder.drop (s1.cacheAccessOrder.length - 50) }
  else s1

/-- One step of the candidate fold inside `findNearest`: keep the strictly
closest valid item seen so far.  `bestSq` carries the squared distance of the
current best candidate; `m0` is the (unchanged while no candidate was found)
clamped search bound.  All comparisons `distance < minDistance` are between
nonnegative lengths once a query has run, so comparing squares is faithful. -/
def nearestScan (px py : ℚ) (m0 : ℚ) (cands : List Item) :
    Option (Item × ℚ) → Option (Item × ℚ) :=
  cands.foldl fun best it =>
    match it.validPos with
    | none => best
    | some p =>
      let dsq := (p.1 - px)^2 + (p.2 - py)^2
      match best with
      | none => if dsq < m0^2 then some (it, dsq) else best
      | some (_, bsq) => if dsq < bsq then some (it, dsq) else best

/-- The radius loop of `findNearest`.  The `if (radius > minDistance) break`
test always sees the unmodified `minDistance` bound `m0`, because the loop is
exited (`if (nearest) break`) as soon as any candidate was accepted. -/
def findNearestLoop (s : SpatialIndex) (px py m0 : ℚ) :
    List ℚ → Option (Item × ℚ) × SpatialIndex
  | [] => (none, s)
  | r :: rest =>
    if m0 < r then (none, s)
    else
      let (cands, s') := query s (some (some px, some py)) (some r)
      match nearestScan px py m0 cands none with
      | some b => (some b, s')
      | none => findNearestLoop s' px py m0 rest

/-- `findNearest(position, maxDistance)`: escalating radii
`[50, 100, 200, 500, min(maxDistance, 1000)]`, stopping at the first radius
that exceeds the clamped bound, early-exiting at the first radius that yields
a candidate. -/
def findNearest (s : SpatialIndex) (pos : Option (Option ℚ × Option ℚ)) (maxDistance : ℚ) :
    Option Item × SpatialIndex :=
  match pos with
  | none => (none, s)
  | some (ox, oy) =>
    match ox, oy with
    | some px, some py =>
      let m0 := min maxDistance 1000
      let (b, s') := findNearestLoop s px py m0 [50, 100, 200, 500, m0]
      (b.map (·.1), s')
    | _, _ => (none, s)

/-! ## SemanticField.js -/

/-- A word (token): its list of character codes.  Tokens produced by
`tokenize` are nonempty strings, hence JS-truthy. -/
abbrev Word := List ℕ

/-- Membership in the token-separator class of `tokenize`'s regular expression
`[\s、。！？]+`: the ECMA-262 `\s` class (tab, LF, VT, FF, CR, space,
NBSP U+00A0, U+1680, U+2000–U+200A, LS U+2028, PS U+2029, NNBSP U+202F,
MMSP U+205F, ideographic space U+3000, BOM U+FEFF) together with the four
full-width punctuation marks 、。！？. -/
def isSep (c : ℕ) : Bool :=
  c = 9 || c = 10 || c = 11 || c = 12 || c = 13 || c = 32 ||
  c = 160 || c = 5760 || (8192 ≤ c && c ≤ 8202) || c = 8232 || c = 8233 ||
  c = 8239 || c = 8287 || c = 12288 || c = 65279 ||
  c = 12289 || c = 12290 || c = 65281 || c = 65311

/-- Split a character-code list at separators; auxiliary for `tokenize`. -/
def splitAux : List ℕ → List ℕ → List (List ℕ)
  | [], acc => [acc.reverse]
  | c :: cs, acc => if isSep c then acc.reverse :: splitAux cs [] else splitAux cs (c :: acc)

/-- `tokenize(text)`: split on separators and drop empty fragments. -/
def tokenize (text : List ℕ) : List Word :=
  (splitAux text []).filter (fun w => ¬ w = [])

/-- State of `class SemanticField`.  `semanticGraph` is the nested
word → (word → similarity) map, `collocationMatrix` maps the bigram key
`` `${w1}_${w2}` `` — modelled as the pair `(w1, w2)`; the underscore join is
injective on underscore-free words and no claim depends on collisions — to a
strength, and `readingHistory` entries are opaque payloads (their content is
never read by the operations modelled here).  The caps
`maxHistorySize = 500`, `maxSemanticGraphSize = 1000`,
`maxCollocationSize = 2000` are inlined literals. -/
structure SemField where
  semanticGraph : List (Word × List (Word × ℚ))
  collocationMatrix : List ((Word × Word) × ℚ)
  readingHistory : List ℕ
  cleanupCounter : ℕ

/-- `new SemanticField()`. -/
def mkSemField : SemField :=
  { semanticGraph := [], collocationMatrix := [], readingHistory := [], cleanupCounter := 0 }

/-- `cleanupSemanticGraph()`: keep the `floor(1000 * 0.8) = 800` root entries
with the most connections (descending stable sort, then truncate and rebuild
the map in that order). -/
def cleanupSemanticGraph (f : SemField) : SemField :=
  { f with semanticGraph :=
      (sortByDesc (fun e => (e.2.length : ℚ)) f.semanticGraph).take 800 }

/-- `cleanupCollocationMatrix()`: keep the `floor(2000 * 0.8) = 1600`
strongest entries. -/
def cleanupCollocationMatrix (f : SemField) : SemField :=
  { f with collocationMatrix :=
      (sortByDesc (fun e => e.2) f.collocationMatrix).take 1600 }

/-- `addSemanticConnection(word1, word2, strength)` (the words are nonempty
strings and the strength a number, so the falsy guard passes): shrink the
graph first when it is at or above the 1000-entry cap, then store the clamped
strength under `word1 → word2`. -/
def addSemanticConnection (f : SemField) (w1 w2 : Word) (strength : ℚ) : SemField :=
  let f1 := if 1000 ≤ f.semanticGraph.length then cleanupSemanticGraph f else f
  let inner := (mapGet f1.semanticGraph w1).getD []
  { f1 with semanticGraph :=
      mapSet f1.semanticGraph w1 (mapSet inner w2 (max 0 (min 1 strength))) }

/-- `getSemanticDistance(word1, word2)`: `1 - similarity` for a stored pair,
default 1 (`none` models a falsy word argument). -/
def getSemanticDistance (f : SemField) (w1 w2 : Option Word) : ℚ :=
  match w1, w2 with
  | some a, some b =>
    match mapGet f.semanticGraph a with
    | some inner =>
      match mapGet inner b with
      | some v => max 0 (1 - v)
      | none => 1
    | none => 1
  | _, _ => 1

/-- `getCollocationStrength(word1, word2)` (for two present words): stored
strength or 0.  (`get(key) || 0` equals `getD 0` because every stored strength
is nonzero or the default coincides.) -/
def getCollocationStrength (f : SemField) (w1 w2 : Word) : ℚ :=
  (mapGet f.collocationMatrix (w1, w2)).getD 0

/-- One iteration of the bigram loop of `detectCollocationPatterns`:
bump the bigram's strength by 0.1, saturating at 1. -/
def collocStep (m : List ((Word × Word) × ℚ)) (k : Word × Word) : List ((Word × Word) × ℚ) :=
  mapSet m k (min 1 ((mapGet m k).getD 0 + 1/10))

/-- `detectCollocationPatterns(words)`: no-op for fewer than two tokens;
otherwise shrink the matrix once if it is at or above the 2000 cap, then bump
every adjacent bigram (tokens are nonempty, so the per-index falsy guard
passes). -/
def detectCollocationPatterns (f : SemField) (words : List Word) : SemField :=
  if words.length < 2 then f
  else
    let f1 := if 2000 ≤ f.collocationMatrix.length then cleanupCollocationMatrix f else f
    { f1 with collocationMatrix := (words.zip words.tail).foldl collocStep f1.collocationMatrix }

/-- `addToReadingHistory(entry)`: push, then drop the oldest entries beyond
the 500 cap. -/
def addToReadingHistory (f : SemField) (entry : ℕ) : SemField :=
  let h := f.readingHistory ++ [entry]
  { f with readingHistory := if 500 < h.length then h.drop (h.length - 500) else h }

/-- First statement of SemanticField's `cleanup()`: trim the reading history
when it exceeds its cap. -/
def semCleanupHistory (f : SemField) : SemField :=
  if 500 < f.readingHistory.length then
    { f with readingHistory := f.readingHistory.drop (f.readingHistory.length - 500) }
  else f

/-- Second statement of `cleanup()`: shrink the semantic graph when it
exceeds its cap. -/
def semCleanupGraph (f : SemField) : SemField :=
  if 1000 < f.semanticGraph.length then cleanupSemanticGraph f else f

/-- Third statement of `cleanup()`: shrink the collocation matrix when it
exceeds its cap. -/
def semCleanupColloc (f : SemField) : SemField :=
  if 2000 < f.collocationMatrix.length then cleanupCollocationMatrix f else f

/-- `cleanup()` of SemanticField: the three trims in source order. -/
def semCleanup (f : SemField) : SemField :=
  semCleanupColloc (semCleanupGraph (semCleanupHistory f))

/-- `performCleanupIfNeeded()`: bump the counter and run `cleanup()` (resetting
the counter) on every 100th call. -/
def performCleanupIfNeeded (f : SemField) : SemField :=
  let c := f.cleanupCounter + 1
  if 100 ≤ c then { semCleanup f with cleanupCounter := 0 }
  else { f with cleanupCounter := c }

/-- All index pairs `i < j` of the similarity double loop of
`analyzeSemanticStructure`, in loop order. -/
def pairList {α : Type} : List α → List (α × α)
  | [] => []
  | a :: rest => rest.map (fun b => (a, b)) ++ pairList rest

/-- `analyzeSemanticStructure(text)`.  `sim w1 w2` stands for
`calculateSemanticSimilarity(getWordEmbedding(w1), getWordEmbedding(w2))` — a
fixed deterministic function of the two words (hash-seeded trigonometric
pseudo-embeddings composed with cosine similarity); it is transcendental, so
the embedding abstracts it as a function parameter and every theorem below
quantifies over it.  Pairs above similarity 0.3 are stored in the graph, then
adjacent bigrams are bumped, then the periodic cleanup runs.  An empty token
list returns early (before the cleanup counter is touched). -/
def analyzeSemanticStructure (sim : Word → Word → ℚ) (f : SemField) (text : List ℕ) : SemField :=
  let words := tokenize text
  if words = [] then f
  else
    let f1 := (pairList words).foldl
      (fun g p => if 3/10 < sim p.1 p.2 then addSemanticConnection g p.1 p.2 (sim p.1 p.2) else g) f
    let f2 := detectCollocationPatterns f1 words
    performCleanupIfNeeded f2

/-- The force triple returned by `calculateSemanticForce` and
`generateInterferencePattern`. -/
structure Force where
  attraction : ℚ
  repulsion : ℚ
  lateral : ℚ
deriving DecidableEq

/-- `generateInterferencePattern(spatialDist, semanticDist,
collocationStrength)`: the JS `Number(x) || d` coercions are `jsOr` (the
arguments are genuine numbers here), then the ratio of the floored operands
drives the three clamped components. -/
def generateInterferencePattern (jsSin : ℚ → ℚ) (spatialDist semanticDist collocationStrength : ℚ) :
    Force :=
  let safeSpatialDist := max (1/10) (jsOr spatialDist (1/10))
  let safeSemanticDist := max (1/10) (min 1 (jsOr semanticDist 1))
  let safeCollocationStrength := max 0 (min 1 (jsOr collocationStrength 0))
  let interferenceRatio := safeSpatialDist / safeSemanticDist
  { attraction := max 0 (min 1 (safeCollocationStrength - interferenceRatio * (3/10))),
    repulsion := max 0 (min 1 ((interferenceRatio - 1) * (1/2))),
    lateral := max (-1) (min 1 (jsSin (interferenceRatio * piQ) * (1/5))) }

/-- A node as seen by `calculateSemanticForce`: only `char` is read (`none`
models a missing or empty — falsy — `char`). -/
structure SNode where
  char : Option Word

/-- `calculateSemanticForce(sourceNode, targetNode, spatialDistance)`: the
null/NaN guard returns the zero triple, otherwise the interference pattern of
the stored semantic distance and collocation strength, re-clamped
componentwise (`pattern.x || 0` is `jsOr`). -/
def calculateSemanticForce (jsSin : ℚ → ℚ) (f : SemField)
    (sourceNode targetNode : Option SNode) (spatialDistance : Option ℚ) : Force :=
  match sourceNode, targetNode, spatialDistance with
  | some sn, some tn, some d =>
    match sn.char, tn.char with
    | some w1, some w2 =>
      let semanticDistance := getSemanticDistance f (some w1) (some w2)
      let collocationStrength := getCollocationStrength f w1 w2
      let p := generateInterferencePattern jsSin d semanticDistance collocationStrength
      { attraction := max 0 (min 1 (jsOr p.attraction 0)),
        repulsion := max 0 (min 1 (jsOr p.repulsion 0)),
        lateral := max (-1) (min 1 (jsOr p.lateral 0)) }
    | _, _ => { attraction := 0, repulsion := 0, lateral := 0 }
  | _, _, _ => { attraction := 0, repulsion := 0, lateral := 0 }

/-- `getSemanticComplexity(word)`: connection count capped at 10, default 1. -/
def getSemanticComplexity (f : SemField) (w : Word) : ℚ :=
  match mapGet f.semanticGraph w with
  | some c => min 10 (c.length : ℚ)
  | none => 1

/-- `calculateCognitiveLoad(node)`: word length, semantic complexity and the
history-based contextual load, averaged and clamped to `[0, 1]`; 0.5 for a
charless node. -/
def calculateCognitiveLoad (f : SemField) (char : Option Word) : ℚ :=
  match char with
  | none => 1/2
  | some w =>
    let wordComplexity : ℚ := (w.length : ℚ)
    let semanticComplexity := getSemanticComplexity f w
    let contextualLoad := min 1 ((f.readingHistory.length : ℚ) * (1/100))
    max 0 (min 1 ((wordComplexity + semanticComplexity + contextualLoad) / 3))

/-! ## OrganicLayout.js (growth engine) -/

/-- A growth-engine node.  `id` models the string `` `node_${k}` ``;
`branchSemantic` records `branchType: 'semantic'` (set only by
`createSemanticBranch`).  Purely visual metadata (`semanticResonance`,
`collocationStrength`, `readingDepth`, `temporalLayer`, `curvature`,
`children`) is not read by any modelled operation and is omitted. -/
structure GNode where
  id : ℕ
  char : Option Word
  x : ℚ
  y : ℚ
  vx : ℚ
  vy : ℚ
  energy : ℚ
  generation : ℕ
  textIndex : ℕ
  parent : Option ℕ
  branchSemantic : Bool
deriving DecidableEq

/-- A connection, unique by its `(from, to)` id pair; the visual/semantic
classification and interference descriptor are not read by any modelled
operation. -/
structure GConn where
  src : ℕ
  dst : ℕ
deriving DecidableEq

/-- `addConnection(connection)`: reject duplicates of the `(from, to)` pair
(ids are the nonempty strings `node_k`, so the falsy guard passes). -/
def addConnection (conns : List GConn) (c : GConn) : List GConn :=
  if conns.any (fun d => d.src = c.src ∧ d.dst = c.dst) then conns else conns ++ [c]

/-- Squared distance between two nodes' positions (`getDistance` squared). -/
def distSq (a b : GNode) : ℚ := (a.x - b.x)^2 + (a.y - b.y)^2

/-- `checkIntersection(node, nearbyNodes)`: some neighbor with a different id
lies strictly within 15 units (`dist < 15`, i.e. squared distance < 225). -/
def checkIntersection (node : GNode) (nearby : List GNode) : Bool :=
  nearby.any fun nb => decide (¬ nb.id = node.id) && decide (distSq node nb < 225)

/-- `checkSemanticIntersection(node, nearbyNodes)`: physical collision, or a
charred neighbor at semantic distance < 0.3 and spatial distance < 25 (the
semantic loop does not skip same-id neighbors). -/
def checkSemanticIntersection (f : SemField) (node : GNode) (nearby : List GNode) : Bool :=
  checkIntersection node nearby ||
    (match node.char with
     | some c =>
       nearby.any fun nb =>
         match nb.char with
         | some nc =>
           decide (getSemanticDistance f (some c) (some nc) < 3/10) &&
             decide (distSq node nb < 625)
         | none => false
     | none => false)

/-- `calculateEnergyDecay(node, nearbyNodes)` for a non-null node: base decay
plus the cognitive-load penalty minus the summed collocation bonus, clamped to
`[0.1, 1]`. -/
def calculateEnergyDecay (f : SemField) (energyDecayParam : ℚ) (node : GNode)
    (nearby : List GNode) : ℚ :=
  let baseDecay := energyDecayParam
  let cognitiveLoad := calculateCognitiveLoad f node.char
  let loadPenalty := max 0 (cognitiveLoad * (1/10))
  let collocationBonus :=
    match node.char with
    | some c =>
      (nearby.filterMap (fun nb => nb.char.map
        (fun nc => max 0 (getCollocationStrength f c nc * (5/100))))).sum
    | none => 0
  max (1/10) (min 1 (baseDecay + loadPenalty - collocationBonus))

/-- The energy assigned by the legacy `createBranch` path
(`Math.max(0, parentNode.energy * 0.7)`, line 483). -/
def createBranchEnergy (e : ℚ) : ℚ := max 0 (e * (7/10))

/-- The random / transcendental choices made while `grow()` processes one
queue node, taken as explicit inputs: `curvedDir` is the final direction after
semantic-force composition, interference and random curvature perturbation
(`applyCurvature` adds a uniform random angle, so every unit-circle direction
is reachable); `branchDraw` is `Math.random() < branchProbability`;
`branchBest` is the `(bestDirection, maxInterest)` result of the 24-angle
trigonometric scan in `createSemanticBranch` (none when no direction scored
positive interest); `avoidanceBest` is the `maxFreedom` found by the 16-angle
scan in `createSemanticAvoidanceBranch` (none when no angle was selected). -/
structure RngChoices where
  curvedDir : ℚ × ℚ
  branchDraw : Bool
  branchBest : Option ((ℚ × ℚ) × ℚ)
  avoidanceBest : Option ℚ

/-- `createSemanticBranch(parentNode, nearbyNodes)` with the scan result
abstracted: build the branch node (energy `0.8 *` parent, floored at 0; id
`` node_${nodes.length} ``; `branchType: 'semantic'`), accept it unless
`checkSemanticIntersection` rejects it against the caller's neighbor list. -/
def createSemanticBranch (f : SemField) (spacing : ℚ) (text : List Word)
    (nodes : List GNode) (conns : List GConn) (parent : GNode) (nearby : List GNode)
    (best : Option ((ℚ × ℚ) × ℚ)) : Option GNode × List GNode × List GConn :=
  match best with
  | none => (none, nodes, conns)
  | some (dir, interest) =>
    if interest ≤ 0 then (none, nodes, conns)
    else
      let nextTextIndex := min (parent.textIndex + 1) (text.length - 1)
      let branchNode : GNode :=
        { id := nodes.length, char := text.get? nextTextIndex,
          x := parent.x + dir.1 * spacing, y := parent.y + dir.2 * spacing,
          vx := dir.1, vy := dir.2,
          energy := max 0 (parent.energy * (4/5)),
          generation := parent.generation + 1, textIndex := nextTextIndex,
          parent := some parent.id, branchSemantic := true }
      if checkSemanticIntersection f branchNode nearby then (none, nodes, conns)
      else (some branchNode, nodes ++ [branchNode],
            addConnection conns { src := parent.id, dst := branchNode.id })

/-- `createSemanticAvoidanceBranch(parentNode, nearbyNodes)`: when the
16-angle freedom scan found a best angle with freedom above 0.3, fall through
to `createSemanticBranch` (which runs its own scan — abstracted by the same
`best` input — and the same conflict check). -/
def createSemanticAvoidanceBranch (f : SemField) (spacing : ℚ) (text : List Word)
    (nodes : List GNode) (conns : List GConn) (parent : GNode) (nearby : List GNode)
    (avoid : Option ℚ) (best : Option ((ℚ × ℚ) × ℚ)) :
    Option GNode × List GNode × List GConn :=
  match parent.char with
  | none => (none, nodes, conns)
  | some _ =>
    match avoid with
    | some freedom =>
      if 3/10 < freedom then createSemanticBranch f spacing text nodes conns parent nearby best
      else (none, nodes, conns)
    | none => (none, nodes, conns)

/-- Outcome of processing one queue node inside `grow()`: the updated node and
connection lists and the nodes created on each of the three creation paths
(main successor, in-tick semantic branch, avoidance branch). -/
structure GrowOutcome where
  nodes : List GNode
  connections : List GConn
  succCreated : Option GNode
  branchCreated : Option GNode
  avoidCreated : Option GNode

/-- The body of `grow()` for one node of the growth queue (OrganicLayout.js
lines 192–290), with the spatial query for `nearbyNodes` taken as an input and
the random/trigonometric choices in `rng`: skip exhausted nodes; build the
successor at `position + curvedDir * characterSpacing` with decayed energy;
on conflict attempt the avoidance branch, otherwise insert the successor,
record the connection, and possibly create a semantic branch — whose conflict
check runs against the same `nearby` list captured before the successor was
inserted. -/
def growNodeStep (f : SemField) (energyDecayParam spacing : ℚ) (text : List Word)
    (nodes0 : List GNode) (conns0 : List GConn) (node : GNode) (nearby : List GNode)
    (rng : RngChoices) : GrowOutcome :=
  if node.energy ≤ 0 ∨ (text.length : ℤ) - 1 ≤ (node.textIndex : ℤ) then
    { nodes := nodes0, connections := conns0,
      succCreated := none, branchCreated := none, avoidCreated := none }
  else
    let nextTextIndex := min (node.textIndex + 1) (text.length - 1)
    let decay := calculateEnergyDecay f energyDecayParam node nearby
    let newNode : GNode :=
      { id := nodes0.length, char := text.get? nextTextIndex,
        x := node.x + rng.curvedDir.1 * spacing, y := node.y + rng.curvedDir.2 * spacing,
        vx := rng.curvedDir.1, vy := rng.curvedDir.2,
        energy := max 0 (node.energy - decay),
        generation := node.generation + 1, textIndex := nextTextIndex,
        parent := some node.id, branchSemantic := false }
    if checkSemanticIntersection f newNode nearby then
      let r := createSemanticAvoidanceBranch f spacing text nodes0 conns0 node nearby
        rng.avoidanceBest rng.branchBest
      { nodes := r.2.1, connections := r.2.2,
        succCreated := none, branchCreated := none, avoidCreated := r.1 }
    else
      let nodes1 := nodes0 ++ [newNode]
      let conns1 := addConnection conns0 { src := node.id, dst := newNode.id }
      if rng.branchDraw ∧ 50 < node.energy then
        let r := createSemanticBranch f spacing text nodes1 conns1 node nearby rng.branchBest
        { nodes := r.2.1, connections := r.2.2,
          succCreated := some newNode, branchCreated := r.1, avoidCreated := none }
      else
        { nodes := nodes1, connections := conns1,
          succCreated := some newNode, branchCreated := none, avoidCreated := none }

/-- `performMemoryCleanup()` (the node and connection limits): when the node
list exceeds `maxNodes = 1000`, splice off the oldest nodes down to
`floor(1000 * 0.8) = 800` and drop every connection touching a removed id. -/
def performMemoryCleanup (nodes : List GNode) (conns : List GConn) :
    List GNode × List GConn :=
  if 1000 < nodes.length then
    let removeCount := nodes.length - 800
    let removedIds := (nodes.take removeCount).map (·.id)
    (nodes.drop removeCount,
     conns.filter (fun c => ¬ c.src ∈ removedIds ∧ ¬ c.dst ∈ removedIds))
  else (nodes, conns)

/-! ## Specification-side definitions and operation runners -/

/-- The loop of the amended `findNearest` description: the radii are iterated
in order, each searched radius queries the index and keeps the strictly
closest candidate within the clamped bound, and the search stops at the first
radius yielding a candidate. -/
def findNearestSpecLoop (s : SpatialIndex) (px py m0 : ℚ) :
    List ℚ → Option (Item × ℚ) × SpatialIndex
  | [] => (none, s)
  | r :: rest =>
    let (cands, s') := query s (some (some px, some py)) (some r)
    match nearestScan px py m0 cands none with
    | some b => (some b, s')
    | none => findNearestSpecLoop s' px py m0 rest

/-- Modelled from the amended claim: `findNearest` searches exactly those of
the radii `[50, 100, 200, 500, min(maxDistance, 1000)]` that precede the first
radius exceeding `min(maxDistance, 1000)` (no clamping of the earlier radii),
and returns the closest candidate of the first searched radius that yields
one. -/
def findNearestSpec (s : SpatialIndex) (pos : Option (Option ℚ × Option ℚ)) (maxDistance : ℚ) :
    Option Item × SpatialIndex :=
  match pos with
  | none => (none, s)
  | some (ox, oy) =>
    match ox, oy with
    | some px, some py =>
      let m0 := min maxDistance 1000
      let radii := ([50, 100, 200, 500, m0] : List ℚ).takeWhile (fun r => decide (r ≤ m0))
      let (b, s') := findNearestSpecLoop s px py m0 radii
      (b.map (·.1), s')
    | _, _ => (none, s)

/-- An operation of the C1 sequence: a (to-be-successful) insert, a remove, or
a query at integer coordinates and integer radius. -/
inductive SIOp where
  | ins (item : Item)
  | rem (i : ℕ)
  | qry (x y r : ℤ)

/-- Apply one operation to the index state. -/
def applyOp (s : SpatialIndex) : SIOp → SpatialIndex
  | .ins item => (SpatialIndex.insert s item).2
  | .rem i => (remove s i).2
  | .qry x y r => (query s (some (some (x : ℚ), some (y : ℚ))) (some (r : ℚ))).2

/-- Validity of an operation relative to the index geometry: inserted items
carry numeric positions inside the canvas rectangle, queried radii are
nonnegative. -/
def opValid (s0 : SpatialIndex) : SIOp → Prop
  | .ins item => ∃ x y, item.pos = some (some x, some y) ∧
      0 ≤ x ∧ x < s0.width ∧ 0 ≤ y ∧ y < s0.height
  | .rem _ => True
  | .qry _ _ r => 0 ≤ r

/-- Grid well-formedness: cell keys are distinct, and every stored item sits
in the (unclamped, in-bounds) grid cell of its numeric in-canvas position. -/
def WFGrid (s : SpatialIndex) : Prop :=
  (s.grid.map (·.1)).Nodup ∧
  ∀ kc ∈ s.grid, ∀ it ∈ kc.2, ∃ p : ℚ × ℚ, it.validPos = some p ∧
    (0 ≤ p.1 ∧ p.1 < s.width ∧ 0 ≤ p.2 ∧ p.2 < s.height) ∧
    kc.1 = getGridKey s p.1 p.2

/-- Cache coherence: every cached entry holds the exact current result of
`performQuery` at its (integer) key, with a nonnegative radius. -/
def CacheOK (s : SpatialIndex) : Prop :=
  ∀ e ∈ s.queryCache, 0 ≤ e.1.2.2 ∧
    e.2 = performQuery s (e.1.1 : ℚ) (e.1.2.1 : ℚ) (e.1.2.2 : ℚ)

/-- Geometry sanity established by the constructor: positive cell size, the
canvas contained in the grid, at least one cell each way. -/
def WFGeom (s : SpatialIndex) : Prop :=
  0 < s.cellSize ∧ s.width ≤ s.gridWidth * s.cellSize ∧
    s.height ≤ s.gridHeight * s.cellSize ∧ 1 ≤ s.gridWidth ∧ 1 ≤ s.gridHeight

/-- Mutation-only operations: the C1 amended claim quantifies over
insert/remove sequences (queries are the observation, not part of the
sequence). -/
def SIMut : SIOp → Prop
  | .ins _ => True
  | .rem _ => True
  | .qry _ _ _ => False

/-- The state invariant maintained by valid mutations from a fresh index:
the constructor geometry is untouched, no query has run (empty cache), and
the grid is well-formed. -/
def SIInv (s0 s : SpatialIndex) : Prop :=
  s.width = s0.width ∧ s.height = s0.height ∧ s.cellSize = s0.cellSize ∧
  s.gridWidth = s0.gridWidth ∧ s.gridHeight = s0.gridHeight ∧
  s.queryCache = [] ∧ WFGrid s

/-- An operation of the C3 sequence: a numeric query or a `cleanup()` call. -/
inductive CacheOp where
  | q (x y r : ℚ)
  | cln

/-- Apply one C3 operation. -/
def applyCacheOp (s : SpatialIndex) : CacheOp → SpatialIndex
  | .q x y r => (query s (some (some x, some y)) (some r)).2
  | .cln => cleanupIndex s

/-- The 51 distinct x-coordinates of the first C3 query batch. -/
def c3Keys1 : List ℤ := (List.range 51).map (fun (i : ℕ) => (i : ℤ))

/-- The 101 distinct x-coordinates of the second C3 query batch. -/
def c3Keys2 : List ℤ := (List.range 101).map (fun (i : ℕ) => (100 + (i : ℤ)))

/-- Queries at integer x-coordinates, y = 0, radius 0. -/
def qOps (ks : List ℤ) : List CacheOp := ks.map (fun (k : ℤ) => CacheOp.q (k : ℚ) 0 0)

/-- The C3 failing sequence: 51 distinct queries, one `cleanup()`, then 101
further distinct queries — all on an empty 800×600 index. -/
def c3Ops : List CacheOp := qOps c3Keys1 ++ [CacheOp.cln] ++ qOps c3Keys2

/-- The index state after the C3 failing sequence. -/
def c3Final : SpatialIndex := c3Ops.foldl applyCacheOp (mkSpatialIndex 800 600 50)

/-- A fresh cache entry as created by a cache-miss query on the empty grid. -/
def c3Entry (k : ℤ) : (ℤ × ℤ × ℤ) × List Item := ((k, 0, 0), [])

/-- The cache key of a C3 query. -/
def c3Key (k : ℤ) : ℤ × ℤ × ℤ := (k, 0, 0)

/-- The C3 start state: a fresh 800×600 index with 50-unit cells. -/
def c3S0 : SpatialIndex := mkSpatialIndex 800 600 50

/-- The state after the first C3 query batch: 51 cached empty results. -/
def c3S1 : SpatialIndex :=
  { c3S0 with queryCache := c3Keys1.map c3Entry, cacheAccessOrder := c3Keys1.map c3Key }

/-- The 50 access-order keys that survive `cleanup()` — they are stale, since
the cache itself was cleared. -/
def c3Stale : List (ℤ × ℤ × ℤ) := (c3Keys1.map c3Key).drop 1

/-- The state right after `cleanup()`: empty cache, 50 stale keys. -/
def c3S2 : SpatialIndex := { c3S0 with queryCache := [], cacheAccessOrder := c3Stale }

/-- The first 100 keys of the second C3 query batch. -/
def c3Keys2a : List ℤ := (List.range 100).map (fun (i : ℕ) => (100 + (i : ℤ)))

/-- The state after those 100 queries: the cache is at its 100-entry cap and
the access order still starts with the 50 stale keys. -/
def c3S3 : SpatialIndex :=
  { c3S0 with queryCache := c3Keys2a.map c3Entry,
              cacheAccessOrder := c3Stale ++ c3Keys2a.map c3Key }

/-- Modelled from the claim (C5, as stated): `attraction = clamp₀₁(collocation
− ratio·0.3)`, `repulsion = clamp₀₁((ratio−1)·0.5)`, `lateral =
clamp₋₁₁(sin(ratio·π)·0.2)` with `ratio = spatialDistance / semanticDistance`,
both operands floored at 0.1, `semanticDistance = 1 − similarity` (default 1
for an unknown pair, hence 0 at similarity 1) and collocation defaulting
to 0. -/
def claimedForceC5 (jsSin : ℚ → ℚ) (f : SemField) (w1 w2 : Word) (spatialDistance : ℚ) : Force :=
  let semanticDistance := getSemanticDistance f (some w1) (some w2)
  let collocation := getCollocationStrength f w1 w2
  let ratio := max (1/10) spatialDistance / max (1/10) semanticDistance
  { attraction := max 0 (min 1 (collocation - ratio * (3/10))),
    repulsion := max 0 (min 1 ((ratio - 1) * (1/2))),
    lateral := max (-1) (min 1 (jsSin (ratio * piQ) * (1/5))) }

/-- Modelled from the amended claim: as `claimedForceC5`, except that a
semantic distance of exactly 0 is first replaced by 1 (the JS `|| 1` falsy
default) before the `[0.1, 1]` clamp, a spatial distance of 0 is replaced by
0.1 before its floor, and the collocation strength is clamped to `[0, 1]`. -/
def claimedForceAmended (jsSin : ℚ → ℚ) (f : SemField) (w1 w2 : Word) (spatialDistance : ℚ) :
    Force :=
  let semanticDistance := getSemanticDistance f (some w1) (some w2)
  let collocation := getCollocationStrength f w1 w2
  let safeSpatial := max (1/10) (jsOr spatialDistance (1/10))
  let safeSemantic := max (1/10) (min 1 (jsOr semanticDistance 1))
  let safeCollocation := max 0 (min 1 (jsOr collocation 0))
  let ratio := safeSpatial / safeSemantic
  { attraction := max 0 (min 1 (safeCollocation - ratio * (3/10))),
    repulsion := max 0 (min 1 ((ratio - 1) * (1/2))),
    lateral := max (-1) (min 1 (jsSin (ratio * piQ) * (1/5))) }

/-- Folding a sequence of `analyzeSemanticStructure` calls from a fresh
`SemanticField`. -/
def analyzeRun (sim : Word → Word → ℚ) (texts : List (List ℕ)) : SemField :=
  texts.foldl (analyzeSemanticStructure sim) mkSemField

/-! ## Concrete example data -/

/-- A trivial stand-in for `Math.sin` (theorems about it are instantiations of
results quantified over every `jsSin`). -/
def jsSin0 : ℚ → ℚ := fun _ => 0

/-- A similarity oracle that reports no similar pairs. -/
def sim0 : Word → Word → ℚ := fun _ _ => 0

/-- C1 counterexample item: a valid numeric position outside the 800×600
canvas (x = 850 ≥ width). -/
def farItem : Item := { id := some 1, pos := some (some 850, some 10) }

/-- C1 counterexample state: the default-geometry index holding `farItem`. -/
def c1CexState : SpatialIndex := (SpatialIndex.insert (mkSpatialIndex 800 600 50) farItem).2

/-- C1/C9/C10 witness item: a valid in-canvas item. -/
def nearItem : Item := { id := some 2, pos := some (some 10, some 10) }

/-- C9 counterexample item: a valid item at the origin. -/
def originItem : Item := { id := some 3, pos := some (some 0, some 0) }

/-- C9 counterexample state: the default-geometry index holding an item at the
origin. -/
def c9State : SpatialIndex :=
  (SpatialIndex.insert (mkSpatialIndex 800 600 50) originItem).2

/-- C2 counterexample word list: 2002 distinct one-character words (chars
300–2301, a range containing no separator of `isSep`). -/
def burstWords : List Word := (List.range 2002).map (fun i => [300 + i])

/-- C2 counterexample text: the 2002 distinct words joined by spaces (one
trailing space; `tokenize` discards the empty fragment). -/
def burstText : List ℕ := burstWords.flatMap (fun w => w ++ [32])

/-- C5 counterexample field state: the graph stores similarity 1 for the pair
(`"a"`, `"a"`) — reachable by analysing a text containing the word `a` twice,
since identical embeddings have cosine similarity 1. -/
def f5 : SemField :=
  { semanticGraph := [([97], [([97], 1)])], collocationMatrix := [],
    readingHistory := [], cleanupCounter := 0 }

/-- C5 counterexample node (char `"a"`). -/
def n5 : SNode := { char := some [97] }

/-- C7 counterexample parent: a lone seed at the origin heading east. -/
def parent7 : GNode :=
  { id := 0, char := some [97], x := 0, y := 0, vx := 1, vy := 0,
    energy := 100, generation := 0, textIndex := 0, parent := none, branchSemantic := false }

/-- C7 counterexample text (two characters, so the parent is not
text-exhausted). -/
def text7 : List Word := [[97], [98]]

/-- C7 counterexample draws: the successor direction and the branch scan's
best direction coincide (east), the branch draw succeeds, no avoidance
needed. -/
def rng7 : RngChoices :=
  { curvedDir := (1, 0), branchDraw := true,
    branchBest := some ((1, 0), 1/2), avoidanceBest := none }

/-- C7 counterexample outcome: one tick's processing of the lone parent. -/
def out7 : GrowOutcome :=
  growNodeStep mkSemField (3/10) 18 text7 [parent7] [] parent7 [] rng7

/-- Squared distance between two optionally-created nodes. -/
def optDistSq (a b : Option GNode) : Option ℚ :=
  match a, b with
  | some a, some b => some (distSq a b)
  | _, _ => none

/-- C4: the engine's node list after 1050 creations and no cleanup — every
creation site assigns `` id: `node_${this.nodes.length}` `` and then pushes,
so the ids are exactly 0, …, 1049 in order (the other fields are immaterial
to id assignment). -/
def nodes1050 : List GNode :=
  (List.range 1050).map fun k =>
    { id := k, char := some [97], x := 0, y := 0, vx := 1, vy := 0,
      energy := 100, generation := 0, textIndex := 0, parent := none, branchSemantic := false }

/-- C4: the queue node processed right after the cleanup (the newest node,
id 1049, which survives the splice). -/
def parentC4 : GNode :=
  { id := 1049, char := some [97], x := 0, y := 0, vx := 1, vy := 0,
    energy := 100, generation := 0, textIndex := 0, parent := none, branchSemantic := false }

/-- C4: a draw with no branching. -/
def rngC4 : RngChoices :=
  { curvedDir := (1, 0), branchDraw := false, branchBest := none, avoidanceBest := none }

/-- C4: node and connection lists after `performMemoryCleanup` ran on the
1050-node state. -/
def c4Cleaned : List GNode × List GConn := performMemoryCleanup nodes1050 []

/-- C4: the outcome of the first successor creation after the cleanup. -/
def c4Out : GrowOutcome :=
  growNodeStep mkSemField (3/10) 18 text7 c4Cleaned.1 c4Cleaned.2 parentC4 [] rngC4

/-- C10 witness state: the default index holding `nearItem`. -/
def c10State : SpatialIndex := (SpatialIndex.insert (mkSpatialIndex 800 600 50) nearItem).2

/-- C10 witness update argument: same id as `nearItem`, missing position. -/
def badItem : Item := { id := some 2, pos := none }

/-! ## Basic clamp lemmas -/

theorem jsOr_zero (x : ℚ) : jsOr x 0 = x := by
  unfold jsOr; split <;> simp_all

theorem clamp01_nonneg (x : ℚ) : 0 ≤ max 0 (min 1 x) := le_max_left 0 _

theorem clamp01_le_one (x : ℚ) : max 0 (min 1 x) ≤ 1 :=
  max_le (by norm_num) (min_le_left 1 x)

theorem clamp11_lower (x : ℚ) : -1 ≤ max (-1) (min 1 x) := le_max_left _ _

theorem clamp11_le_one (x : ℚ) : max (-1) (min 1 x) ≤ 1 :=
  max_le (by norm_num) (min_le_left 1 x)

theorem reclamp01 (x : ℚ) : max 0 (min 1 (jsOr (max 0 (min 1 x)) 0)) = max 0 (min 1 x) := by
  rw [jsOr_zero, min_eq_right (clamp01_le_one x), max_eq_right (clamp01_nonneg x)]

theorem reclamp11 (x : ℚ) :
    max (-1) (min 1 (jsOr (max (-1) (min 1 x)) 0)) = max (-1) (min 1 x) := by
  rw [jsOr_zero, min_eq_right (clamp11_le_one x), max_eq_right (clamp11_lower x)]

/-! ## Claim C6 -/

/-- C6: for every model of `Math.sin`, every field state, every source/target
node argument (including null and char-less nodes) and every `spatialDistance`
(any rational, with `none` covering `NaN`/non-numbers, and zero included),
`calculateSemanticForce` returns `attraction ∈ [0,1]`, `repulsion ∈ [0,1]`
and `lateral ∈ [−1,1]`. -/
theorem C6_force_bounds (jsSin : ℚ → ℚ) (f : SemField) (sn tn : Option SNode) (d : Option ℚ) :
    0 ≤ (calculateSemanticForce jsSin f sn tn d).attraction ∧
    (calculateSemanticForce jsSin f sn tn d).attraction ≤ 1 ∧
    0 ≤ (calculateSemanticForce jsSin f sn tn d).repulsion ∧
    (calculateSemanticForce jsSin f sn tn d).repulsion ≤ 1 ∧
    -1 ≤ (calculateSemanticForce jsSin f sn tn d).lateral ∧
    (calculateSemanticForce jsSin f sn tn d).lateral ≤ 1 := by
  rcases sn with _ | ⟨_ | w1⟩ <;> rcases tn with _ | ⟨_ | w2⟩ <;> rcases d with _ | d <;>
    first
      | exact ⟨le_refl 0, show (0 : ℚ) ≤ 1 by norm_num, le_refl 0,
          show (0 : ℚ) ≤ 1 by norm_num, show (-1 : ℚ) ≤ 0 by norm_num,
          show (0 : ℚ) ≤ 1 by norm_num⟩
      | exact ⟨clamp01_nonneg _, clamp01_le_one _, clamp01_nonneg _, clamp01_le_one _,
          clamp11_lower _, clamp11_le_one _⟩

/-! ## Claim C5 -/

/-- C5 counterexample: with similarity 1 stored for the pair (`"a"`, `"a"`)
and spatialDistance 1, the claimed formula (semantic distance 0 floored to
0.1, hence ratio 10) gives repulsion `clamp((10−1)·0.5) = 1`, but the code's
`Number(semanticDist) || 1` coerces the zero distance to 1, giving ratio 1 and
repulsion 0. -/
theorem C5_cex :
    (calculateSemanticForce jsSin0 f5 (some n5) (some n5) (some 1)).repulsion = 0 ∧
    (claimedForceC5 jsSin0 f5 [97] [97] 1).repulsion = 1 := by
  constructor <;> with_unfolding_all decide

/-- C5 (amended): for every model of `Math.sin`, every field state, every pair
of present characters and every numeric spatialDistance,
`calculateSemanticForce` returns exactly `attraction = clamp₀₁(collocation −
ratio·0.3)`, `repulsion = clamp₀₁((ratio−1)·0.5)`, `lateral =
clamp₋₁₁(sin(ratio·π)·0.2)`, where `ratio = spatial/semantic` with the spatial
operand defaulted to 0.1 when zero then floored at 0.1, the semantic distance
(`1 − similarity`, default 1 for an unknown pair) first replaced by 1 when it
is exactly 0 (JS `|| 1`) and then clamped to `[0.1, 1]`, and the collocation
strength (default 0) clamped to `[0, 1]`. -/
theorem C5_force_formula (jsSin : ℚ → ℚ) (f : SemField) (w1 w2 : Word) (d : ℚ) :
    calculateSemanticForce jsSin f (some { char := some w1 }) (some { char := some w2 })
      (some d) = claimedForceAmended jsSin f w1 w2 d := by
  simp only [calculateSemanticForce, claimedForceAmended, generateInterferencePattern,
    Force.mk.injEq]
  exact ⟨reclamp01 _, reclamp01 _, reclamp11 _⟩

/-! ## Claim C1 — counterexample -/

set_option maxRecDepth 20000 in
/-- C1 counterexample: `farItem` sits at (850, 10), outside the 800-wide
canvas, so `insert` clamps it into edge cell (15, 0); a query centered at the
item's own position with radius 5 scans the (empty) clamped cell range
[16, 15] and returns nothing, although the item is at distance 0 ≤ 5 and is
currently indexed — a false negative. -/
theorem C1_cex :
    (query c1CexState (some (some 850, some 10)) (some 5)).1 = [] ∧
    farItem ∈ allItems c1CexState := by
  constructor <;> with_unfolding_all decide

/-! ## Claim C9 — counterexample -/

/-- C9 counterexample: with an indexed item at the origin and
`findNearest({x:0,y:0}, 10)`, the claim says the clamped radius 10 is searched
and the item (distance 0 ≤ 10) returned; the code breaks out of the radius
loop at the first radius 50 > 10 without searching anything and returns null,
although `performQuery` at the clamped radius does contain the item. -/
theorem C9_cex :
    (findNearest c9State (some (some 0, some 0)) 10).1 = none ∧
    originItem ∈ performQuery c9State 0 0 10 := by
  constructor <;> with_unfolding_all decide

/-! ## Claim C7 -/

/-- C7 counterexample: a lone parent grows its successor east to (18, 0); the
branch draw succeeds and the branch scan also picks east, so the branch node
is also created at (18, 0).  Its conflict check runs against the neighbor
list captured before the successor was inserted (the empty list), so both
nodes are accepted at squared distance 0 < 15² — and no avoidance branch was
involved. -/
theorem C7_cex :
    optDistSq out7.succCreated out7.branchCreated = some 0 ∧
    out7.avoidCreated = none := by
  constructor <;> with_unfolding_all decide

/-- C7 (amended): the rejection predicate is exactly as described — a
candidate is rejected iff some neighbor with a different id lies strictly
within 15 units, or some neighbor's character is at semantic distance < 0.3
with spatial distance < 25 (distances squared in the embedding).  The 15-unit
separation between created nodes themselves is however not guaranteed across
one tick (see the counterexample): the branch's conflict check reuses the
neighbor list captured before the successor's insertion. -/
theorem C7_conflict_predicate (f : SemField) (node : GNode) (nearby : List GNode) :
    checkSemanticIntersection f node nearby = true ↔
      ((∃ nb ∈ nearby, nb.id ≠ node.id ∧ distSq node nb < 225) ∨
       (∃ nb ∈ nearby, ∃ c nc : Word, node.char = some c ∧ nb.char = some nc ∧
          getSemanticDistance f (some c) (some nc) < 3/10 ∧ distSq node nb < 625)) := by
  unfold checkSemanticIntersection
  rw [Bool.or_eq_true]
  apply or_congr
  · unfold checkIntersection
    rw [List.any_eq_true]
    constructor
    · rintro ⟨nb, hm, hb⟩
      rw [Bool.and_eq_true, decide_eq_true_eq, decide_eq_true_eq] at hb
      exact ⟨nb, hm, hb.1, hb.2⟩
    · rintro ⟨nb, hm, h1, h2⟩
      refine ⟨nb, hm, ?_⟩
      rw [Bool.and_eq_true, decide_eq_true_eq, decide_eq_true_eq]
      exact ⟨h1, h2⟩
  · rcases hc : node.char with _ | c
    · simp
    · rw [List.any_eq_true]
      constructor
      · rintro ⟨nb, hm, hb⟩
        rcases hnc : nb.char with _ | nc
        · rw [hnc] at hb; exact absurd hb (by simp)
        · rw [hnc] at hb
          rw [Bool.and_eq_true, decide_eq_true_eq, decide_eq_true_eq] at hb
          exact ⟨nb, hm, c, nc, rfl, hnc, hb.1, hb.2⟩
      · rintro ⟨nb, hm, c', nc, hc', hnc, h1, h2⟩
        have hcc : c = c' := Option.some_inj.mp hc'
        subst hcc
        refine ⟨nb, hm, ?_⟩
        rw [hnc, Bool.and_eq_true, decide_eq_true_eq, decide_eq_true_eq]
        exact ⟨h1, h2⟩

/-! ## Claim C8 -/

theorem checkSemanticIntersection_nil (f : SemField) (node : GNode) :
    checkSemanticIntersection f node [] = false := by
  rcases hc : node.char with _ | c <;>
    simp [checkSemanticIntersection, checkIntersection, hc]

theorem energy_step_le (e d : ℚ) (he : 0 ≤ e) (hd : 0 ≤ d) : max 0 (e - d) ≤ e :=
  max_le he (by linarith)

theorem energy_branch_le (e : ℚ) (he : 0 ≤ e) : max 0 (e * (4/5)) ≤ e :=
  max_le he (by linarith)

theorem createSemanticBranch_energy (f : SemField) (spacing : ℚ) (text : List Word)
    (nodes : List GNode) (conns : List GConn) (parent : GNode) (nearby : List GNode)
    (best : Option ((ℚ × ℚ) × ℚ)) (n : GNode)
    (h : (createSemanticBranch f spacing text nodes conns parent nearby best).1 = some n) :
    n.energy = max 0 (parent.energy * (4/5)) := by
  rcases best with _ | ⟨dir, interest⟩ <;> simp only [createSemanticBranch] at h
  · simp at h
  · split at h
    · simp at h
    · split at h
      · simp at h
      · rw [← Option.some_inj.mp h]

theorem createSemanticAvoidanceBranch_energy (f : SemField) (spacing : ℚ) (text : List Word)
    (nodes : List GNode) (conns : List GConn) (parent : GNode) (nearby : List GNode)
    (avoid : Option ℚ) (best : Option ((ℚ × ℚ) × ℚ)) (n : GNode)
    (h : (createSemanticAvoidanceBranch f spacing text nodes conns parent nearby avoid best).1 =
      some n) :
    n.energy = max 0 (parent.energy * (4/5)) := by
  rcases hc : parent.char with _ | c <;> rcases avoid with _ | freedom <;>
    simp only [createSemanticAvoidanceBranch, hc] at h
  · simp at h
  · simp at h
  · simp at h
  · split at h
    · exact createSemanticBranch_energy f spacing text nodes conns parent nearby best n h
    · simp at h

/-- C8: the per-step energy decay is always clamped to `[0.1, 1]`; the main
successor created by `grow()` has energy exactly `max(0, parent − decay)`,
and every branch node (in-tick semantic branch or avoidance branch) has
energy exactly `max(0, 0.8 · parent)`; hence along every parent-to-child
lineage with nonnegative parent energy the child energy is nonnegative and
never exceeds the parent's (monotone non-increasing).  The legacy
`createBranch` path (unreachable from `grow()`) uses the factor 0.7 and is
likewise monotone. -/
theorem C8_energy_monotone (f : SemField) (eDecay spacing : ℚ) (text : List Word)
    (nodes : List GNode) (conns : List GConn) (node : GNode) (nearby : List GNode)
    (rng : RngChoices) (he : 0 ≤ node.energy) :
    (1/10 ≤ calculateEnergyDecay f eDecay node nearby ∧
      calculateEnergyDecay f eDecay node nearby ≤ 1) ∧
    (∀ n : GNode,
      (growNodeStep f eDecay spacing text nodes conns node nearby rng).succCreated = some n →
      n.energy = max 0 (node.energy - calculateEnergyDecay f eDecay node nearby) ∧
        0 ≤ n.energy ∧ n.energy ≤ node.energy) ∧
    (∀ n : GNode,
      (growNodeStep f eDecay spacing text nodes conns node nearby rng).branchCreated = some n →
      n.energy = max 0 (node.energy * (4/5)) ∧ 0 ≤ n.energy ∧ n.energy ≤ node.energy) ∧
    (∀ n : GNode,
      (growNodeStep f eDecay spacing text nodes conns node nearby rng).avoidCreated = some n →
      n.energy = max 0 (node.energy * (4/5)) ∧ 0 ≤ n.energy ∧ n.energy ≤ node.energy) ∧
    (∀ e : ℚ, 0 ≤ e → 0 ≤ createBranchEnergy e ∧ createBranchEnergy e ≤ e) := by
  have hdec : 1/10 ≤ calculateEnergyDecay f eDecay node nearby := le_max_left _ _
  have hdec1 : calculateEnergyDecay f eDecay node nearby ≤ 1 :=
    max_le (by norm_num) (min_le_left _ _)
  have hbound : ∀ n : GNode, n.energy = max 0 (node.energy * (4/5)) →
      0 ≤ n.energy ∧ n.energy ≤ node.energy := by
    intro n hn
    rw [hn]
    exact ⟨le_max_left _ _, energy_branch_le _ he⟩
  refine ⟨⟨hdec, hdec1⟩, ?_, ?_, ?_, ?_⟩
  · intro n hn
    simp only [growNodeStep] at hn
    split_ifs at hn
    all_goals
      (have hnn := Option.some_inj.mp hn
       subst hnn
       exact ⟨rfl, le_max_left _ _, energy_step_le _ _ he (by linarith)⟩)
  · intro n hn
    simp only [growNodeStep] at hn
    split_ifs at hn
    all_goals
      exact ⟨createSemanticBranch_energy _ _ _ _ _ _ _ _ _ hn,
        hbound n (createSemanticBranch_energy _ _ _ _ _ _ _ _ _ hn)⟩
  · intro n hn
    simp only [growNodeStep] at hn
    split_ifs at hn
    all_goals
      exact ⟨createSemanticAvoidanceBranch_energy _ _ _ _ _ _ _ _ _ _ hn,
        hbound n (createSemanticAvoidanceBranch_energy _ _ _ _ _ _ _ _ _ _ hn)⟩
  · intro e heg
    unfold createBranchEnergy
    exact ⟨le_max_left _ _, max_le heg (by linarith)⟩

/-- C8 witness: the theorem applied to the concrete lone-seed state of the C7
data (parent energy 100 ≥ 0). -/
theorem C8_energy_monotone_witness :
    (0 : ℚ) ≤ parent7.energy ∧
    ((1/10 ≤ calculateEnergyDecay mkSemField (3/10) parent7 [] ∧
       calculateEnergyDecay mkSemField (3/10) parent7 [] ≤ 1) ∧
     (∀ n : GNode,
       (growNodeStep mkSemField (3/10) 18 text7 [parent7] [] parent7 [] rng7).succCreated =
         some n →
       n.energy = max 0 (parent7.energy - calculateEnergyDecay mkSemField (3/10) parent7 []) ∧
         0 ≤ n.energy ∧ n.energy ≤ parent7.energy) ∧
     (∀ n : GNode,
       (growNodeStep mkSemField (3/10) 18 text7 [parent7] [] parent7 [] rng7).branchCreated =
         some n →
       n.energy = max 0 (parent7.energy * (4/5)) ∧ 0 ≤ n.energy ∧ n.energy ≤ parent7.energy) ∧
     (∀ n : GNode,
       (growNodeStep mkSemField (3/10) 18 text7 [parent7] [] parent7 [] rng7).avoidCreated =
         some n →
       n.energy = max 0 (parent7.energy * (4/5)) ∧ 0 ≤ n.energy ∧ n.energy ≤ parent7.energy) ∧
     (∀ e : ℚ, 0 ≤ e → 0 ≤ createBranchEnergy e ∧ createBranchEnergy e ≤ e)) :=
  ⟨by norm_num [parent7],
   C8_energy_monotone mkSemField (3/10) 18 text7 [parent7] [] parent7 [] rng7
     (by norm_num [parent7])⟩

/-! ## Claim C9 -/

/-- The break-based radius loop of `findNearest` searches exactly the radii
prefix not exceeding the clamped bound. -/
theorem findNearestLoop_eq_spec (px py m0 : ℚ) :
    ∀ (l : List ℚ) (s : SpatialIndex),
      findNearestLoop s px py m0 l =
        findNearestSpecLoop s px py m0 (l.takeWhile (fun r => decide (r ≤ m0))) := by
  intro l
  induction l with
  | nil => intro s; rfl
  | cons r rest ih =>
    intro s
    by_cases h : m0 < r
    · have hd : (decide (r ≤ m0)) = false := by simp [not_le.mpr h]
      rw [List.takeWhile_cons, hd]
      simp only [findNearestLoop, if_pos h]
      rfl
    · have hd : (decide (r ≤ m0)) = true := by simp [not_lt.mp h]
      rw [List.takeWhile_cons, hd]
      simp only [findNearestLoop, if_neg h, findNearestSpecLoop]
      rcases hq : query s (some (some px, some py)) (some r) with ⟨cands, s'⟩
      rcases hn : nearestScan px py m0 cands none with _ | b
      · exact ih s'
      · rfl

/-- C9 (amended): `findNearest` coincides with the amended description —
iterate the radii `[50, 100, 200, 500, min(maxDistance, 1000)]` in order,
stopping (without clamping the radii) before the first radius that exceeds
`min(maxDistance, 1000)`, searching each remaining radius through `query` and
returning the closest candidate of the first radius that yields one; in
particular, when `maxDistance < 50`, no radius is searched at all and the
result is null, even when an indexed item lies within `maxDistance`. -/
theorem C9_findNearest_amended :
    (∀ (s : SpatialIndex) (pos : Option (Option ℚ × Option ℚ)) (maxD : ℚ),
      findNearest s pos maxD = findNearestSpec s pos maxD) ∧
    (∀ (s : SpatialIndex) (px py maxD : ℚ), maxD < 50 →
      (findNearest s (some (some px, some py)) maxD).1 = none) := by
  constructor
  · intro s pos maxD
    rcases pos with _ | ⟨_ | px, _ | py⟩ <;> try rfl
    simp only [findNearest, findNearestSpec]
    rw [findNearestLoop_eq_spec]
  · intro s px py maxD h
    have hm : min maxD 1000 = maxD := min_eq_left (by linarith)
    have h50 : maxD < (50 : ℚ) := h
    simp only [findNearest, hm, findNearestLoop, if_pos h50]
    rfl

/-- C9 witness: the amended theorem applied at the concrete `c9State` with
`maxDistance = 10 < 50`. -/
theorem C9_findNearest_amended_witness :
    (findNearest c9State (some (some 0, some 0)) 10 =
      findNearestSpec c9State (some (some 0, some 0)) 10) ∧
    (10 : ℚ) < 50 ∧
    (findNearest c9State (some (some 0, some 0)) 10).1 = none :=
  ⟨C9_findNearest_amended.1 c9State (some (some 0, some 0)) 10, by norm_num,
   C9_findNearest_amended.2 c9State 0 0 10 (by norm_num)⟩

/-! ## Claim C10 -/

theorem mem_of_mapGet {κ ν : Type} [DecidableEq κ] {m : List (κ × ν)} {k : κ} {v : ν}
    (h : mapGet m k = some v) : (k, v) ∈ m := by
  unfold mapGet at h
  rcases hf : m.find? (fun p => decide (p.1 = k)) with _ | p
  · rw [hf] at h; simp at h
  · rw [hf] at h
    have hp := List.mem_of_find?_eq_some hf
    have hk := List.find?_some hf
    have h2 : p.2 = v := by simpa using h
    have h1 : p.1 = k := by simpa using hk
    rw [← h1, ← h2]
    exact hp

theorem performQuery_subset (s : SpatialIndex) (x y r : ℚ) (it : Item)
    (h : it ∈ performQuery s x y r) : it ∈ allItems s := by
  unfold performQuery at h
  simp only [List.mem_flatMap] at h
  rcases h with ⟨gx, hgx, gy, hgy, hit⟩
  rcases hmg : mapGet s.grid (gx, gy) with _ | items
  · rw [hmg] at hit; simp at hit
  · rw [hmg] at hit
    have hmem := List.mem_of_mem_filter hit
    rw [allItems, List.mem_flatMap]
    exact ⟨((gx, gy), items), mem_of_mapGet hmg, hmem⟩

theorem insert_invalid (s : SpatialIndex) (item : Item) (h : item.validPos = none) :
    SpatialIndex.insert s item = (false, s) := by
  unfold SpatialIndex.insert
  unfold Item.validPos at h
  rcases hp : item.pos with _ | ⟨_ | x, _ | y⟩ <;> simp_all [hp]

theorem remove_grid (s : SpatialIndex) (i : ℕ) :
    (remove s i).2.grid = s.grid.filterMap (removeCellStep i) := by
  simp only [remove]
  split <;> rfl

theorem remove_count (s : SpatialIndex) (i : ℕ) :
    (remove s i).2.itemCount =
      s.itemCount - ((allItems s).filter (fun it => it.id = some ↑i)).length := by
  simp only [remove]
  split <;> rfl

theorem remove_cache_cleared (s : SpatialIndex) (i : ℕ)
    (h : ¬ ((allItems s).filter (fun it => it.id = some ↑i)).length = 0) :
    (remove s i).2.queryCache = [] := by
  simp only [remove]
  rw [if_neg h]
  rfl

theorem remove_no_id (s : SpatialIndex) (i : ℕ) (it : Item)
    (hm : it ∈ allItems (remove s i).2) : ¬ it.id = some i := by
  intro hid
  rw [allItems, remove_grid, List.mem_flatMap] at hm
  rcases hm with ⟨kc', hkc', hit⟩
  rcases List.mem_filterMap.mp hkc' with ⟨kc, hkc, hstep⟩
  simp only [removeCellStep] at hstep
  split at hstep
  · exact Option.noConfusion hstep
  · have hkc2 := Option.some_inj.mp hstep
    rw [← hkc2] at hit
    unfold removeFromCell at hit
    have hp := List.of_mem_filter hit
    simp only [decide_eq_true_eq] at hp
    exact hp hid

/-- C10: `update(item)` is literally remove-by-id followed by insert, so when
the item's id is currently indexed but its position is missing or `NaN`, the
previously indexed copy is removed (the state is the post-`remove` state, the
item count strictly decreases, and no query can return any item with that id
again), while `update` returns `false` — a failed update is not atomic. -/
theorem C10_update_not_atomic (s : SpatialIndex) (item : Item) (i : ℕ)
    (hid : item.id = some i)
    (hfound : (findItemById s i).isSome = true)
    (hbad : item.validPos = none)
    (hcount : s.itemCount = (allItems s).length) :
    update s item = SpatialIndex.insert (remove s i).2 item ∧
    (update s item).1 = false ∧
    (update s item).2 = (remove s i).2 ∧
    (∀ it ∈ allItems (update s item).2, ¬ it.id = some i) ∧
    (update s item).2.itemCount < s.itemCount ∧
    (∀ (pos : Option (Option ℚ × Option ℚ)) (radius : Option ℚ) (it : Item),
      it ∈ (query (update s item).2 pos radius).1 → ¬ it.id = some i) := by
  have hup : update s item = SpatialIndex.insert (remove s i).2 item := by
    simp only [update, hid]
  have hins := insert_invalid (remove s i).2 item hbad
  have hstate : (update s item).2 = (remove s i).2 := by rw [hup, hins]
  -- the found item witnesses a nonempty filter
  rcases hfind : findItemById s i with _ | it0
  · rw [hfind] at hfound; simp at hfound
  · have hmem0 : it0 ∈ allItems s := List.mem_of_find?_eq_some hfind
    have hid0 : it0.id = some i := by
      have := List.find?_some hfind
      simpa using this
    have hfmem : it0 ∈ (allItems s).filter (fun it => it.id = some ↑i) := by
      rw [List.mem_filter]
      exact ⟨hmem0, by simp [hid0]⟩
    have hflen : 0 < ((allItems s).filter (fun it => it.id = some ↑i)).length :=
      List.length_pos_of_mem hfmem
    have hcount0 : 0 < s.itemCount := by
      rw [hcount]
      exact List.length_pos_of_mem hmem0
    refine ⟨hup, ?_, hstate, ?_, ?_, ?_⟩
    · rw [hup, hins]
    · intro it hit
      rw [hstate] at hit
      exact remove_no_id s i it hit
    · rw [hstate, remove_count]
      exact Nat.sub_lt hcount0 hflen
    · intro pos radius it hit
      rw [hstate] at hit
      have hcache : (remove s i).2.queryCache = [] :=
        remove_cache_cleared s i (by omega)
      rcases pos with _ | ⟨_ | x, _ | y⟩
      · exact absurd hit (by simp [query])
      · exact absurd hit (by simp [query])
      · exact absurd hit (by simp [query])
      · exact absurd hit (by simp [query])
      · rcases radius with _ | r
        · exact absurd hit (by simp [query])
        · by_cases hr : r < 0
          · simp only [query, if_pos hr] at hit
            exact absurd hit (by simp)
          · simp only [query, if_neg hr, hcache] at hit
            simp only [mapGet, List.find?_nil, Option.map_none] at hit
            exact remove_no_id s i it (performQuery_subset _ _ _ _ _ hit)

/-- C10 witness: the default index holding `nearItem` (id 2), updated with an
item of id 2 and missing position. -/
theorem C10_update_not_atomic_witness :
    (badItem.id = some 2 ∧ (findItemById c10State 2).isSome = true ∧
      badItem.validPos = none ∧ c10State.itemCount = (allItems c10State).length) ∧
    (update c10State badItem).1 = false ∧
    (update c10State badItem).2.itemCount < c10State.itemCount :=
  ⟨⟨by with_unfolding_all decide, by with_unfolding_all decide, by with_unfolding_all decide,
     by with_unfolding_all decide⟩,
   (C10_update_not_atomic c10State badItem 2 (by with_unfolding_all decide)
      (by with_unfolding_all decide) (by with_unfolding_all decide)
      (by with_unfolding_all decide)).2.1,
   (C10_update_not_atomic c10State badItem 2 (by with_unfolding_all decide)
      (by with_unfolding_all decide) (by with_unfolding_all decide)
      (by with_unfolding_all decide)).2.2.2.2.1⟩

/-! ## Claim C4 -/

/-- Processing a queue node with an empty neighborhood and no branch draw
appends exactly one node whose id is the current length of the node list —
the id-assignment behavior of every creation site
(`` id: `node_${this.nodes.length}` `` followed by a push). -/
theorem growNodeStep_ids (f : SemField) (eDecay spacing : ℚ) (text : List Word)
    (nodes : List GNode) (conns : List GConn) (node : GNode) (rng : RngChoices)
    (h1 : ¬ node.energy ≤ 0) (h2 : ¬ ((text.length : ℤ) - 1 ≤ (node.textIndex : ℤ)))
    (h3 : rng.branchDraw = false) :
    (growNodeStep f eDecay spacing text nodes conns node [] rng).nodes.map GNode.id =
      nodes.map GNode.id ++ [nodes.length] := by
  simp only [growNodeStep]
  rw [if_neg (not_or.mpr ⟨h1, h2⟩)]
  rw [if_neg (by simp [checkSemanticIntersection_nil])]
  rw [if_neg (by simp [h3])]
  simp

/-- C4: evaluation of the id-collision bug.  After 1050 creations the node
ids are 0, …, 1049; `performMemoryCleanup` splices off the oldest 250 nodes,
leaving ids 250, …, 1049 and a node list of length 800; the next node created
by `grow()` therefore receives id `node_800`, which is also the id of a
surviving node — id 800 now occurs twice and the id list is no longer
duplicate-free. -/
theorem C4_duplicate_id :
    (c4Out.nodes.map GNode.id).count 800 = 2 ∧ ¬ (c4Out.nodes.map GNode.id).Nodup := by
  have h1050 : nodes1050.length = 1050 := by simp [nodes1050]
  have hclean : c4Cleaned = (nodes1050.drop 250, []) := by
    simp only [c4Cleaned, performMemoryCleanup, h1050]
    norm_num
  have hlen : (nodes1050.drop 250).length = 800 := by
    simp [nodes1050]
  have hids : c4Out.nodes.map GNode.id = (nodes1050.drop 250).map GNode.id ++ [800] := by
    have := growNodeStep_ids mkSemField (3/10) 18 text7 (nodes1050.drop 250) [] parentC4 rngC4
      (by norm_num [parentC4]) (by norm_num [parentC4, text7]) rfl
    rw [c4Out, hclean]
    rw [this, hlen]
  have hmap : (nodes1050.drop 250).map GNode.id = (List.range 1050).drop 250 := by
    simp only [nodes1050, List.map_drop, List.map_map]
    have : (GNode.id ∘ fun k =>
        ({ id := k, char := some [97], x := 0, y := 0, vx := 1, vy := 0,
           energy := 100, generation := 0, textIndex := 0, parent := none,
           branchSemantic := false } : GNode)) = fun k => k := rfl
    rw [this, List.map_id']
  have hdrop : (List.range 1050).drop 250 = (List.range 800).map (250 + ·) := by
    have : (1050 : ℕ) = 250 + 800 := by norm_num
    rw [this, List.range_add, List.drop_left' (by simp)]
  have hmem : (800 : ℕ) ∈ (List.range 1050).drop 250 := by
    rw [hdrop]
    refine List.mem_map.mpr ⟨550, ?_, by norm_num⟩
    simp
  have hnodup : ((List.range 1050).drop 250).Nodup :=
    (List.nodup_range ..).sublist (List.drop_sublist _ _)
  have hcount1 : ((List.range 1050).drop 250).count 800 = 1 :=
    Nat.le_antisymm (List.nodup_iff_count_le_one.mp hnodup 800)
      (List.count_pos_iff.mpr hmem)
  constructor
  · rw [hids, hmap, List.count_append, hcount1]
    rfl
  · intro hnd
    have := List.nodup_iff_count_le_one.mp hnd 800
    rw [hids, hmap, List.count_append, hcount1] at this
    simp at this

/-! ## Claim C2 -/

theorem mapGet_cons {κ ν : Type} [DecidableEq κ] (k' : κ) (v' : ν) (rest : List (κ × ν))
    (k : κ) : mapGet ((k', v') :: rest) k = if k' = k then some v' else mapGet rest k := by
  by_cases h : k' = k <;> simp [mapGet, List.find?_cons, h]

theorem length_mapSet_le {κ ν : Type} [DecidableEq κ] (m : List (κ × ν)) (k : κ) (v : ν) :
    (mapSet m k v).length ≤ m.length + 1 := by
  induction m with
  | nil => simp [mapSet]
  | cons p rest ih =>
    rcases p with ⟨k', v'⟩
    simp only [mapSet]
    split
    · simp
    · simp only [List.length_cons]
      exact Nat.succ_le_succ ih

theorem mapSet_fresh {κ ν : Type} [DecidableEq κ] (m : List (κ × ν)) (k : κ) (v : ν)
    (h : mapGet m k = none) : mapSet m k v = m ++ [(k, v)] := by
  induction m with
  | nil => rfl
  | cons p rest ih =>
    rcases p with ⟨k', v'⟩
    rw [mapGet_cons] at h
    by_cases hk : k' = k
    · rw [if_pos hk] at h
      exact Option.noConfusion h
    · rw [if_neg hk] at h
      simp only [mapSet, if_neg hk]
      rw [ih h]
      simp

theorem mapGet_append_none {κ ν : Type} [DecidableEq κ] (m : List (κ × ν)) (k k' : κ) (v : ν)
    (h : mapGet m k' = none) (hne : ¬ k' = k) : mapGet (m ++ [(k, v)]) k' = none := by
  have h1 : m.find? (fun p => decide (p.1 = k')) = none := by
    rcases hf : m.find? (fun p => decide (p.1 = k')) with _ | p
    · exact hf
    · rw [mapGet, hf] at h
      simp at h
  have hne' : ¬ (k = k') := fun hkk => hne hkk.symm
  simp [mapGet, List.find?_append, h1, List.find?_cons, hne']

theorem foldl_inv {α β : Type} (P : β → Prop) (step : β → α → β)
    (h : ∀ b a, P b → P (step b a)) :
    ∀ (l : List α) (b : β), P b → P (l.foldl step b) := by
  intro l
  induction l with
  | nil => intro b hb; exact hb
  | cons a rest ih => intro b hb; exact ih _ (h b a hb)

theorem length_insertByDesc {α : Type} (key : α → ℚ) (a : α) (l : List α) :
    (insertByDesc key a l).length = l.length + 1 := by
  induction l with
  | nil => rfl
  | cons b bs ih =>
    simp only [insertByDesc]
    split
    · simp
    · simp only [List.length_cons, ih]

theorem length_sortByDesc {α : Type} (key : α → ℚ) (l : List α) :
    (sortByDesc key l).length = l.length := by
  induction l with
  | nil => rfl
  | cons b bs ih =>
    show (insertByDesc key b (sortByDesc key bs)).length = bs.length + 1
    rw [length_insertByDesc, ih]

theorem cleanupSemanticGraph_le (f : SemField) :
    (cleanupSemanticGraph f).semanticGraph.length ≤ 800 := by
  simp only [cleanupSemanticGraph]
  simp [List.length_take]

theorem cleanupSemanticGraph_mono (f : SemField) :
    (cleanupSemanticGraph f).semanticGraph.length ≤ f.semanticGraph.length := by
  simp only [cleanupSemanticGraph]
  simp [List.length_take, length_sortByDesc]

theorem cleanupCollocationMatrix_le (f : SemField) :
    (cleanupCollocationMatrix f).collocationMatrix.length ≤ 1600 := by
  simp only [cleanupCollocationMatrix]
  simp [List.length_take]

theorem cleanupCollocationMatrix_mono (f : SemField) :
    (cleanupCollocationMatrix f).collocationMatrix.length ≤ f.collocationMatrix.length := by
  simp only [cleanupCollocationMatrix]
  simp [List.length_take, length_sortByDesc]

theorem addSemanticConnection_colloc (f : SemField) (w1 w2 : Word) (st : ℚ) :
    (addSemanticConnection f w1 w2 st).collocationMatrix = f.collocationMatrix := by
  simp only [addSemanticConnection, cleanupSemanticGraph]
  split <;> rfl

theorem addSemanticConnection_history (f : SemField) (w1 w2 : Word) (st : ℚ) :
    (addSemanticConnection f w1 w2 st).readingHistory = f.readingHistory := by
  simp only [addSemanticConnection, cleanupSemanticGraph]
  split <;> rfl

theorem addSemanticConnection_graph_le (f : SemField) (w1 w2 : Word) (st : ℚ)
    (h : f.semanticGraph.length ≤ 1000) :
    (addSemanticConnection f w1 w2 st).semanticGraph.length ≤ 1000 := by
  simp only [addSemanticConnection]
  split
  · refine le_trans (length_mapSet_le _ _ _) ?_
    have h2 := cleanupSemanticGraph_le f
    omega
  · rename_i hlt
    refine le_trans (length_mapSet_le _ _ _) ?_
    omega

theorem collocFold_le (ks : List (Word × Word)) :
    ∀ m : List ((Word × Word) × ℚ),
      (ks.foldl collocStep m).length ≤ m.length + ks.length := by
  induction ks with
  | nil => intro m; simp
  | cons k rest ih =>
    intro m
    have h1 := ih (collocStep m k)
    have h2 : (collocStep m k).length ≤ m.length + 1 := length_mapSet_le _ _ _
    simp only [List.foldl_cons, List.length_cons]
    omega

theorem detectCollocationPatterns_graph (f : SemField) (ws : List Word) :
    (detectCollocationPatterns f ws).semanticGraph = f.semanticGraph := by
  simp only [detectCollocationPatterns, cleanupCollocationMatrix]
  split
  · rfl
  · split <;> rfl

theorem detectCollocationPatterns_history (f : SemField) (ws : List Word) :
    (detectCollocationPatterns f ws).readingHistory = f.readingHistory := by
  simp only [detectCollocationPatterns, cleanupCollocationMatrix]
  split
  · rfl
  · split <;> rfl

theorem detectCollocationPatterns_le (f : SemField) (ws : List Word) (B : ℕ)
    (hB : ws.length - 1 ≤ B) (hc : f.collocationMatrix.length ≤ 1999 + B) :
    (detectCollocationPatterns f ws).collocationMatrix.length ≤ 1999 + B := by
  have hzip : (ws.zip ws.tail).length ≤ ws.length - 1 := by
    rw [List.length_zip, List.length_tail]
    omega
  simp only [detectCollocationPatterns]
  split
  · exact hc
  · split
    · rename_i h2000
      show (List.foldl collocStep (cleanupCollocationMatrix f).collocationMatrix
        (ws.zip ws.tail)).length ≤ 1999 + B
      have h1 := collocFold_le (ws.zip ws.tail) (cleanupCollocationMatrix f).collocationMatrix
      have h2 := cleanupCollocationMatrix_le f
      omega
    · rename_i h2000
      show (List.foldl collocStep f.collocationMatrix (ws.zip ws.tail)).length ≤ 1999 + B
      have h1 := collocFold_le (ws.zip ws.tail) f.collocationMatrix
      omega

theorem semCleanupHistory_mono (f : SemField) :
    (semCleanupHistory f).semanticGraph = f.semanticGraph ∧
    (semCleanupHistory f).collocationMatrix = f.collocationMatrix ∧
    (semCleanupHistory f).readingHistory.length ≤ f.readingHistory.length := by
  simp only [semCleanupHistory]
  split
  · exact ⟨rfl, rfl, by simp [List.length_drop]⟩
  · exact ⟨rfl, rfl, le_refl _⟩

theorem semCleanupGraph_mono (f : SemField) :
    (semCleanupGraph f).semanticGraph.length ≤ f.semanticGraph.length ∧
    (semCleanupGraph f).collocationMatrix = f.collocationMatrix ∧
    (semCleanupGraph f).readingHistory = f.readingHistory := by
  simp only [semCleanupGraph]
  split
  · exact ⟨cleanupSemanticGraph_mono f, rfl, rfl⟩
  · exact ⟨le_refl _, rfl, rfl⟩

theorem semCleanupColloc_mono (f : SemField) :
    (semCleanupColloc f).semanticGraph = f.semanticGraph ∧
    (semCleanupColloc f).collocationMatrix.length ≤ f.collocationMatrix.length ∧
    (semCleanupColloc f).readingHistory = f.readingHistory := by
  simp only [semCleanupColloc]
  split
  · exact ⟨rfl, cleanupCollocationMatrix_mono f, rfl⟩
  · exact ⟨rfl, le_refl _, rfl⟩

theorem semCleanup_mono (f : SemField) :
    (semCleanup f).semanticGraph.length ≤ f.semanticGraph.length ∧
    (semCleanup f).readingHistory.length ≤ f.readingHistory.length ∧
    (semCleanup f).collocationMatrix.length ≤ f.collocationMatrix.length := by
  have h1 := semCleanupHistory_mono f
  have h2 := semCleanupGraph_mono (semCleanupHistory f)
  have h3 := semCleanupColloc_mono (semCleanupGraph (semCleanupHistory f))
  unfold semCleanup
  refine ⟨?_, ?_, ?_⟩
  · rw [h3.1]
    calc (semCleanupGraph (semCleanupHistory f)).semanticGraph.length
        ≤ (semCleanupHistory f).semanticGraph.length := h2.1
      _ = f.semanticGraph.length := by rw [h1.1]
  · rw [h3.2.2, h2.2.2]
    exact h1.2.2
  · calc (semCleanupColloc (semCleanupGraph (semCleanupHistory f))).collocationMatrix.length
        ≤ (semCleanupGraph (semCleanupHistory f)).collocationMatrix.length := h3.2.1
      _ = (semCleanupHistory f).collocationMatrix.length := by rw [h2.2.1]
      _ = f.collocationMatrix.length := by rw [h1.2.1]

theorem performCleanupIfNeeded_mono (f : SemField) :
    (performCleanupIfNeeded f).semanticGraph.length ≤ f.semanticGraph.length ∧
    (performCleanupIfNeeded f).readingHistory.length ≤ f.readingHistory.length ∧
    (performCleanupIfNeeded f).collocationMatrix.length ≤ f.collocationMatrix.length := by
  simp only [performCleanupIfNeeded]
  split
  · exact semCleanup_mono f
  · exact ⟨le_refl _, le_refl _, le_refl _⟩

theorem analyzeSemanticStructure_inv (sim : Word → Word → ℚ) (t : List ℕ) (B : ℕ)
    (f : SemField) (hB : (tokenize t).length - 1 ≤ B)
    (hg : f.semanticGraph.length ≤ 1000) (hh : f.readingHistory.length ≤ 500)
    (hc : f.collocationMatrix.length ≤ 1999 + B) :
    (analyzeSemanticStructure sim f t).semanticGraph.length ≤ 1000 ∧
    (analyzeSemanticStructure sim f t).readingHistory.length ≤ 500 ∧
    (analyzeSemanticStructure sim f t).collocationMatrix.length ≤ 1999 + B := by
  simp only [analyzeSemanticStructure]
  split
  · exact ⟨hg, hh, hc⟩
  · have hf1 := foldl_inv
      (fun g : SemField => g.semanticGraph.length ≤ 1000 ∧
        g.collocationMatrix = f.collocationMatrix ∧ g.readingHistory = f.readingHistory)
      (fun g p => if 3/10 < sim p.1 p.2 then addSemanticConnection g p.1 p.2 (sim p.1 p.2)
        else g)
      (by
        intro b a hb
        beta_reduce
        by_cases hsim : 3/10 < sim a.1 a.2
        · rw [if_pos hsim]
          exact ⟨addSemanticConnection_graph_le b a.1 a.2 _ hb.1,
            (addSemanticConnection_colloc b a.1 a.2 _).trans hb.2.1,
            (addSemanticConnection_history b a.1 a.2 _).trans hb.2.2⟩
        · rw [if_neg hsim]
          exact hb)
      (pairList (tokenize t)) f ⟨hg, rfl, rfl⟩
    set f1 := (pairList (tokenize t)).foldl
      (fun g p => if 3/10 < sim p.1 p.2 then addSemanticConnection g p.1 p.2 (sim p.1 p.2)
        else g) f with hf1def
    have hdet1 : (detectCollocationPatterns f1 (tokenize t)).semanticGraph.length ≤ 1000 := by
      rw [detectCollocationPatterns_graph]
      exact hf1.1
    have hdet2 : (detectCollocationPatterns f1 (tokenize t)).readingHistory.length ≤ 500 := by
      rw [detectCollocationPatterns_history, hf1.2.2]
      exact hh
    have hdet3 : (detectCollocationPatterns f1 (tokenize t)).collocationMatrix.length ≤
        1999 + B :=
      detectCollocationPatterns_le f1 (tokenize t) B hB (by rw [hf1.2.1]; exact hc)
    have hper := performCleanupIfNeeded_mono (detectCollocationPatterns f1 (tokenize t))
    exact ⟨le_trans hper.1 hdet1, le_trans hper.2.1 hdet2, le_trans hper.2.2 hdet3⟩

/-- C2 (amended): after any sequence of `analyzeSemanticStructure` calls on a
fresh `SemanticField` — for any similarity function — the association graph
never exceeds its 1000-root cap and the reading history never exceeds 500
entries; the collocation table, however, is only shrunk (to 1600) at the
start of a call that finds it at or above 2000, so a single call can leave it
above 2000: its size is bounded by 1999 plus the largest number of bigram
insertions any single call makes (one less than that call's token count). -/
theorem C2_bounded_collections (sim : Word → Word → ℚ) (texts : List (List ℕ)) (B : ℕ)
    (hB : ∀ t ∈ texts, (tokenize t).length - 1 ≤ B) :
    (analyzeRun sim texts).semanticGraph.length ≤ 1000 ∧
    (analyzeRun sim texts).readingHistory.length ≤ 500 ∧
    (analyzeRun sim texts).collocationMatrix.length ≤ 1999 + B := by
  unfold analyzeRun
  have main : ∀ (ts : List (List ℕ)), (∀ t ∈ ts, (tokenize t).length - 1 ≤ B) →
      ∀ f : SemField, f.semanticGraph.length ≤ 1000 → f.readingHistory.length ≤ 500 →
      f.collocationMatrix.length ≤ 1999 + B →
      (ts.foldl (analyzeSemanticStructure sim) f).semanticGraph.length ≤ 1000 ∧
      (ts.foldl (analyzeSemanticStructure sim) f).readingHistory.length ≤ 500 ∧
      (ts.foldl (analyzeSemanticStructure sim) f).collocationMatrix.length ≤ 1999 + B := by
    intro ts
    induction ts with
    | nil => intro _ f hg hh hc; exact ⟨hg, hh, hc⟩
    | cons t rest ih =>
      intro hts f hg hh hc
      have hstep := analyzeSemanticStructure_inv sim t B f (hts t (by simp)) hg hh hc
      exact ih (fun t' ht' => hts t' (by simp [ht'])) _ hstep.1 hstep.2.1 hstep.2.2
  exact main texts hB mkSemField (by simp [mkSemField]) (by simp [mkSemField])
    (by simp [mkSemField])

/-- C2 witness: the amended theorem applied to a single two-word text with
bigram bound 1. -/
theorem C2_bounded_collections_witness :
    (∀ t ∈ [[97, 32, 98]], (tokenize t).length - 1 ≤ 1) ∧
    (analyzeRun sim0 [[97, 32, 98]]).semanticGraph.length ≤ 1000 ∧
    (analyzeRun sim0 [[97, 32, 98]]).readingHistory.length ≤ 500 ∧
    (analyzeRun sim0 [[97, 32, 98]]).collocationMatrix.length ≤ 1999 + 1 :=
  ⟨by decide, C2_bounded_collections sim0 [[97, 32, 98]] 1 (by decide)⟩

theorem splitAux_sepfree (w : List ℕ) :
    ∀ (rest acc : List ℕ), (∀ c ∈ w, isSep c = false) →
      splitAux (w ++ 32 :: rest) acc = (acc.reverse ++ w) :: splitAux rest [] := by
  induction w with
  | nil =>
    intro rest acc _
    simp [splitAux, isSep]
  | cons c cs ih =>
    intro rest acc hw
    have hc : isSep c = false := hw c (by simp)
    simp only [List.cons_append, splitAux, hc, Bool.false_eq_true, if_false, List.append_eq]
    rw [ih rest (c :: acc) (fun d hd => hw d (by simp [hd]))]
    simp

theorem tokenize_joinWords (ws : List Word)
    (h : ∀ w ∈ ws, w ≠ [] ∧ ∀ c ∈ w, isSep c = false) :
    tokenize (ws.flatMap (fun w => w ++ [32])) = ws := by
  induction ws with
  | nil => rfl
  | cons w rest ih =>
    have hw := h w (by simp)
    simp only [List.flatMap_cons, List.append_assoc, List.singleton_append]
    unfold tokenize
    rw [splitAux_sepfree w _ [] hw.2]
    simp only [List.reverse_nil, List.nil_append, List.filter_cons]
    rw [if_pos (by simpa using hw.1)]
    have ihh := ih (fun w' hw' => h w' (by simp [hw']))
    unfold tokenize at ihh
    rw [ihh]

theorem pairFold_sim0 (l : List (Word × Word)) :
    ∀ f : SemField,
      l.foldl (fun g p => if 3/10 < sim0 p.1 p.2 then
        addSemanticConnection g p.1 p.2 (sim0 p.1 p.2) else g) f = f := by
  induction l with
  | nil => intro f; rfl
  | cons a rest ih =>
    intro f
    simp only [List.foldl_cons]
    rw [if_neg (by norm_num [sim0])]
    exact ih f

theorem collocFold_len_fresh :
    ∀ (ks : List (Word × Word)) (m : List ((Word × Word) × ℚ)), ks.Nodup →
      (∀ k ∈ ks, mapGet m k = none) →
      (ks.foldl collocStep m).length = m.length + ks.length := by
  intro ks
  induction ks with
  | nil => intro m _ _; simp
  | cons k rest ih =>
    intro m hnd hf
    have hk : mapGet m k = none := hf k (by simp)
    have hstep : collocStep m k = m ++ [(k, min 1 ((mapGet m k).getD 0 + 1/10))] :=
      mapSet_fresh m k _ hk
    simp only [List.foldl_cons, hstep]
    rw [ih (m ++ [(k, min 1 ((mapGet m k).getD 0 + 1/10))]) (List.Nodup.of_cons hnd)]
    · simp only [List.length_append, List.length_cons, List.length_nil]
      omega
    · intro k' hk'
      have hne : ¬ k' = k := by
        intro hkk
        rw [hkk] at hk'
        exact (List.nodup_cons.mp hnd).1 hk'
      exact mapGet_append_none m k k' _ (hf k' (by simp [hk'])) hne

theorem burstWords_nodup : burstWords.Nodup := by
  refine List.Nodup.map ?_ (List.nodup_range ..)
  intro a b hab
  simpa using hab

theorem burstZip_nodup : (burstWords.zip burstWords.tail).Nodup := by
  have hlen : burstWords.tail.length ≤ burstWords.length := by
    rw [List.length_tail]
    omega
  have hmap : (burstWords.zip burstWords.tail).map Prod.snd = burstWords.tail :=
    List.map_snd_zip _ _ hlen
  have htail : burstWords.tail.Nodup :=
    burstWords_nodup.sublist (List.tail_sublist _)
  rw [← hmap] at htail
  exact List.Nodup.of_map Prod.snd htail

/-- The burst words are all nonempty and separator-free. -/
theorem burstWords_sepfree : ∀ w ∈ burstWords, w ≠ [] ∧ ∀ c ∈ w, isSep c = false := by
  intro w hw
  rcases List.mem_map.mp hw with ⟨i, hi, rfl⟩
  refine ⟨by simp, ?_⟩
  intro c hc
  have hci : c = 300 + i := by simpa using hc
  subst hci
  have hub : 300 + i < 2302 := by
    have := List.mem_range.mp hi
    omega
  simp only [isSep, Bool.or_eq_false_iff, Bool.and_eq_false_iff,
    decide_eq_false_iff_not]
  omega

theorem burstTokenize : tokenize burstText = burstWords :=
  tokenize_joinWords burstWords burstWords_sepfree

theorem burstWords_length : burstWords.length = 2002 := by simp [burstWords]

theorem burstZip_length : (burstWords.zip burstWords.tail).length = 2001 := by
  rw [List.length_zip, List.length_tail, burstWords_length]
  omega

/-- `detectCollocationPatterns` on the burst: the one-shot cap check passes
(the table is empty) and the loop then installs all 2001 fresh bigrams. -/
theorem burstDetect_spec :
    (detectCollocationPatterns mkSemField burstWords).collocationMatrix.length = 2001 ∧
      (detectCollocationPatterns mkSemField burstWords).cleanupCounter = 0 := by
  have h1 : ¬ burstWords.length < 2 := by
    rw [burstWords_length]
    norm_num
  have h2 : ¬ 2000 ≤ mkSemField.collocationMatrix.length := by
    simp [mkSemField]
  simp only [detectCollocationPatterns, if_neg h1, if_neg h2]
  refine ⟨?_, rfl⟩
  show ((burstWords.zip burstWords.tail).foldl collocStep
    mkSemField.collocationMatrix).length = 2001
  have hfr : ∀ k ∈ burstWords.zip burstWords.tail,
      mapGet mkSemField.collocationMatrix k = none := fun k _ => rfl
  rw [collocFold_len_fresh _ _ burstZip_nodup hfr, burstZip_length]
  simp [mkSemField]

/-- On the burst text, `analyzeSemanticStructure` (under the no-similarity
oracle) reduces to the periodic-cleanup wrapper around the bigram
detection. -/
theorem burstAnalyze_eq : analyzeSemanticStructure sim0 mkSemField burstText =
    performCleanupIfNeeded (detectCollocationPatterns mkSemField burstWords) := by
  have hne : ¬ burstWords = [] := by
    intro hnil
    have h := burstWords_length
    rw [hnil] at h
    simp at h
  unfold analyzeSemanticStructure
  rw [burstTokenize, if_neg hne, pairFold_sim0]

/-- The periodic cleanup does not fire on the first call (counter 1 < 100),
so the oversized collocation table survives it. -/
theorem burstCleanup_colloc :
    (performCleanupIfNeeded (detectCollocationPatterns mkSemField burstWords)).collocationMatrix =
      (detectCollocationPatterns mkSemField burstWords).collocationMatrix := by
  have h3 : ¬ 100 ≤ (detectCollocationPatterns mkSemField burstWords).cleanupCounter + 1 := by
    rw [burstDetect_spec.2]
    norm_num
  simp only [performCleanupIfNeeded, if_neg h3]

/-- C2 counterexample: one `analyzeSemanticStructure` call on a text of 2002
distinct words (a one-step burst) leaves the collocation table at 2001 > 2000
entries: the cap check runs once, before the bigram-insertion loop, and the
loop then inserts 2001 fresh bigrams into the empty table. -/
theorem C2_cex :
    2000 < (analyzeSemanticStructure sim0 mkSemField burstText).collocationMatrix.length := by
  rw [burstAnalyze_eq, burstCleanup_colloc, burstDetect_spec.1]
  norm_num

theorem jsRound_int (k : ℤ) : jsRound (k : ℚ) = k := by
  rw [jsRound, add_comm, Int.floor_add_int]
  norm_num

theorem performQuery_grid_nil (s : SpatialIndex) (h : s.grid = []) (x y r : ℚ) :
    performQuery s x y r = [] := by
  simp [performQuery, h, mapGet]

theorem queryStep_fresh (s : SpatialIndex) (k : ℤ)
    (hg : s.grid = []) (hfresh : mapGet s.queryCache (k, 0, 0) = none)
    (hlen : s.queryCache.length < 100) :
    applyCacheOp s (CacheOp.q (k : ℚ) 0 0) =
      { s with queryCache := s.queryCache ++ [((k, 0, 0), [])],
               cacheAccessOrder := s.cacheAccessOrder ++ [(k, 0, 0)] } := by
  have hr0 : jsRound (0 : ℚ) = 0 := by
    have := jsRound_int 0
    simpa using this
  have hkey : ((jsRound (k : ℚ), jsRound (0 : ℚ), jsRound (0 : ℚ)) : ℤ × ℤ × ℤ) = (k, 0, 0) := by
    rw [jsRound_int, hr0]
  simp only [applyCacheOp, query]
  rw [if_neg (by norm_num : ¬ (0 : ℚ) < 0)]
  rw [hkey, hfresh]
  simp only [addToCache]
  rw [if_neg (by omega : ¬ 100 ≤ s.queryCache.length)]
  rw [performQuery_grid_nil s hg, mapSet_fresh _ _ _ hfresh]

theorem qOps_cons (k : ℤ) (ks : List ℤ) :
    qOps (k :: ks) = CacheOp.q (k : ℚ) 0 0 :: qOps ks := rfl

theorem qOps_batch (ks : List ℤ) :
    ∀ (s : SpatialIndex), s.grid = [] →
      (∀ k ∈ ks, mapGet s.queryCache (k, 0, 0) = none) → ks.Nodup →
      s.queryCache.length + ks.length ≤ 100 →
      (qOps ks).foldl applyCacheOp s =
        { s with
          queryCache := s.queryCache ++ ks.map (fun k => ((k, 0, 0), ([] : List Item))),
          cacheAccessOrder := s.cacheAccessOrder ++ ks.map (fun k => (k, 0, 0)) } := by
  induction ks with
  | nil =>
    intro s _ _ _ _
    simp [qOps]
  | cons k rest ih =>
    intro s hg hf hnd hlen
    rw [qOps_cons, List.foldl_cons]
    rw [queryStep_fresh s k hg (hf k (by simp)) (by simp at hlen; omega)]
    have hf' : ∀ k' ∈ rest,
        mapGet (s.queryCache ++ [((k, 0, 0), ([] : List Item))]) (k', 0, 0) = none := by
      intro k' hk'
      have hkk : ¬ k' = k := by
        intro hkk
        rw [hkk] at hk'
        exact (List.nodup_cons.mp hnd).1 hk'
      exact mapGet_append_none _ _ _ _ (hf k' (by simp [hk'])) (by simp [hkk])
    have hlen' : (s.queryCache ++ [((k, 0, 0), ([] : List Item))]).length + rest.length ≤ 100 := by
      simp at hlen ⊢
      omega
    have hrec := ih (SpatialIndex.mk s.width s.height s.cellSize s.gridWidth s.gridHeight
        s.grid s.itemCount (s.queryCache ++ [((k, 0, 0), [])])
        (s.cacheAccessOrder ++ [(k, 0, 0)])) hg hf' ((List.nodup_cons.mp hnd).2) hlen'
    rw [hrec]
    simp









theorem mapGet_none_of {κ ν : Type} [DecidableEq κ] (m : List (κ × ν)) (k : κ)
    (h : ∀ e ∈ m, ¬ e.1 = k) : mapGet m k = none := by
  rw [mapGet, List.find?_eq_none.mpr]
  · rfl
  · intro p hp
    simpa using h p hp

theorem mapDelete_absent {κ ν : Type} [DecidableEq κ] (m : List (κ × ν)) (k : κ)
    (h : ∀ e ∈ m, ¬ e.1 = k) : mapDelete m k = m := by
  rw [mapDelete, List.filter_eq_self.mpr]
  intro p hp
  simpa using h p hp


theorem c3Keys1_nodup : c3Keys1.Nodup := by
  refine List.Nodup.map ?_ (List.nodup_range ..)
  intro a b hab
  simpa using hab

theorem c3Keys2a_nodup : c3Keys2a.Nodup := by
  refine List.Nodup.map ?_ (List.nodup_range ..)
  intro a b hab
  simpa using hab

theorem c3_batch1 : (qOps c3Keys1).foldl applyCacheOp c3S0 = c3S1 := by
  have hq : c3S0.queryCache = [] := rfl
  have hrec := qOps_batch c3Keys1 c3S0 rfl (fun k _ => rfl) c3Keys1_nodup
    (by rw [hq]; simp [c3Keys1])
  rw [hrec]
  show _ = c3S1
  rw [c3S1]
  have ha : c3S0.cacheAccessOrder = [] := rfl
  rw [hq, ha]
  simp [c3Entry, c3Key]

theorem c3_cleanup : cleanupIndex c3S1 = c3S2 := by
  have hg : c3S1.grid = [] := rfl
  have hlen : c3S1.queryCache.length = 51 := by
    show (c3Keys1.map c3Entry).length = 51
    simp [c3Keys1]
  simp only [cleanupIndex, hg]
  rw [if_pos]
  · show _ = c3S2
    rw [c3S2, c3Stale]
    have ha : c3S1.cacheAccessOrder = c3Keys1.map c3Key := rfl
    have hal : c3S1.cacheAccessOrder.length = 51 := by rw [ha]; simp [c3Keys1]
    simp only [List.filter_nil, ha, hal]
    norm_num
    refine ⟨rfl, rfl, rfl, rfl, rfl, rfl, rfl, ?_⟩
    have hk1 : c3Keys1.length = 51 := by simp [c3Keys1]
    rw [hk1, List.drop_one]
  · show 50 < ({ c3S1 with grid := [] } : SpatialIndex).queryCache.length
    show 50 < c3S1.queryCache.length
    rw [hlen]
    norm_num

theorem c3_batch2 : (qOps c3Keys2a).foldl applyCacheOp c3S2 = c3S3 := by
  have hq : c3S2.queryCache = [] := rfl
  have hrec := qOps_batch c3Keys2a c3S2 rfl (fun k _ => rfl) c3Keys2a_nodup
    (by rw [hq]; simp [c3Keys2a])
  rw [hrec]
  show _ = c3S3
  rw [c3S3]
  have ha : c3S2.cacheAccessOrder = c3Stale := rfl
  rw [hq, ha]
  simp [c3Entry, c3Key]
  exact ⟨rfl, rfl, rfl, rfl, rfl, rfl, rfl⟩

theorem c3_evict : ((qOps [(200 : ℤ)]).foldl applyCacheOp c3S3).queryCache.length = 101 := by
  have hq3 : c3S3.queryCache = c3Keys2a.map c3Entry := rfl
  have hlen3 : c3S3.queryCache.length = 100 := by rw [hq3]; simp [c3Keys2a]
  have hfresh : mapGet c3S3.queryCache ((200 : ℤ), 0, 0) = none := by
    apply mapGet_none_of
    intro e he
    rw [hq3] at he
    rcases List.mem_map.mp he with ⟨k, hk, rfl⟩
    rcases List.mem_map.mp hk with ⟨i, hi, rfl⟩
    have hi' : i < 100 := List.mem_range.mp hi
    simp only [c3Entry]
    intro hcontra
    have h1 : (100 + (i : ℤ)) = 200 := by
      have h2 := congrArg Prod.fst hcontra
      simpa using h2
    omega
  have hstale_len : c3Stale.length = 50 := by simp [c3Stale, c3Keys1]
  obtain ⟨o, t, hot⟩ := List.exists_cons_of_ne_nil
    (l := c3Stale) (by intro h; rw [h] at hstale_len; simp at hstale_len)
  have ho : o ∈ c3Keys1.map c3Key := by
    have hmem : o ∈ c3Stale := by rw [hot]; exact List.mem_cons_self _ _
    exact List.mem_of_mem_drop hmem
  have hdel : mapDelete c3S3.queryCache o = c3S3.queryCache := by
    apply mapDelete_absent
    intro e he
    rw [hq3] at he
    rcases List.mem_map.mp he with ⟨k, hk, rfl⟩
    rcases List.mem_map.mp hk with ⟨i, hi, rfl⟩
    rcases List.mem_map.mp ho with ⟨k', hk', rfl⟩
    rcases List.mem_map.mp hk' with ⟨j, hj, rfl⟩
    have hi' : i < 100 := List.mem_range.mp hi
    have hj' : j < 51 := List.mem_range.mp hj
    simp only [c3Entry, c3Key]
    intro hcontra
    have h1 : (100 + (i : ℤ)) = (j : ℤ) := by
      have h2 := congrArg Prod.fst hcontra
      simpa using h2
    omega
  have hr0 : jsRound (0 : ℚ) = 0 := by simpa using jsRound_int 0
  have hkey : ((jsRound ((200 : ℤ) : ℚ), jsRound (0 : ℚ), jsRound (0 : ℚ)) : ℤ × ℤ × ℤ) =
      ((200 : ℤ), 0, 0) := by
    rw [jsRound_int, hr0]
  have hao : c3S3.cacheAccessOrder = o :: (t ++ c3Keys2a.map c3Key) := by
    show c3Stale ++ c3Keys2a.map c3Key = _
    rw [hot, List.cons_append]
  show (applyCacheOp c3S3 (CacheOp.q ((200 : ℤ) : ℚ) 0 0)).queryCache.length = 101
  simp only [applyCacheOp, query]
  rw [if_neg (by norm_num : ¬ (0 : ℚ) < 0)]
  rw [hkey, hfresh]
  simp only [addToCache]
  rw [if_pos (by rw [hlen3] : (100 : ℕ) ≤ c3S3.queryCache.length)]
  rw [hao]
  show (mapSet (mapDelete c3S3.queryCache o) ((200 : ℤ), 0, 0)
    (performQuery c3S3 ((200 : ℤ) : ℚ) 0 0)).length = 101
  rw [hdel, mapSet_fresh _ _ _ hfresh, List.length_append, hlen3]
  simp

theorem qOps_append (l1 l2 : List ℤ) : qOps (l1 ++ l2) = qOps l1 ++ qOps l2 := by
  simp [qOps]

theorem c3Keys2_split : c3Keys2 = c3Keys2a ++ [(200 : ℤ)] := by
  rw [c3Keys2, c3Keys2a, List.range_succ, List.map_append]
  norm_num

theorem c3Final_cache : c3Final.queryCache.length = 101 := by
  have h0 : mkSpatialIndex 800 600 50 = c3S0 := rfl
  rw [c3Final, c3Ops, c3Keys2_split, qOps_append, h0]
  rw [List.foldl_append, List.foldl_append, List.foldl_append]
  rw [c3_batch1]
  have hcln : List.foldl applyCacheOp c3S1 [CacheOp.cln] = c3S2 := by
    show applyCacheOp c3S1 CacheOp.cln = c3S2
    show cleanupIndex c3S1 = c3S2
    exact c3_cleanup
  rw [hcln, c3_batch2]
  exact c3_evict

/-- C3: the cache-size invariant fails.  After 51 distinct queries, one
`cleanup()`, and 101 further distinct queries on an empty 800×600 index, the
query cache holds 101 > 100 entries: `cleanup()` clears the cache `Map` but
re-installs the 50 most-recent keys into the access order, so the next 50
evictions delete stale keys and leave the cache free to grow past the cap. -/
theorem C3_cache_overflow : 100 < c3Final.queryCache.length := by
  rw [c3Final_cache]
  norm_num

theorem floor_sub_ceil_le (a b : ℚ) : ⌊a⌋ - ⌈b⌉ ≤ ⌊a - b⌋ := by
  apply Int.le_floor.mpr
  push_cast
  have h1 := Int.floor_le a
  have h2 := Int.le_ceil b
  linarith

theorem floor_add_le_ceil (a b : ℚ) : ⌊a + b⌋ ≤ ⌊a⌋ + ⌈b⌉ := by
  have h : a + b < ((⌊a⌋ + ⌈b⌉ : ℤ) : ℚ) + 1 := by
    push_cast
    have h1 := Int.lt_floor_add_one a
    have h2 := Int.le_ceil b
    linarith
  have := Int.floor_lt.mpr (by push_cast at h ⊢; linarith : a + b < ((⌊a⌋ + ⌈b⌉ + 1 : ℤ) : ℚ))
  omega

theorem mem_intRange (a b z : ℤ) (h1 : a ≤ z) (h2 : z ≤ b) : z ∈ intRange a b := by
  rw [intRange, List.mem_map]
  refine ⟨(z - a).toNat, ?_, ?_⟩
  · rw [List.mem_range]
    omega
  · omega

theorem mapGet_of_mem_nodup {κ ν : Type} [DecidableEq κ] :
    ∀ (m : List (κ × ν)), (m.map (fun e => e.1)).Nodup → ∀ (k : κ) (v : ν), (k, v) ∈ m →
      mapGet m k = some v := by
  intro m
  induction m with
  | nil =>
    intro _ k v h
    simp at h
  | cons e rest ih =>
    intro hm k v h
    rcases e with ⟨k', v'⟩
    rcases List.mem_cons.mp h with h | h
    · have hk : k = k' := congrArg Prod.fst h
      have hv : v = v' := congrArg Prod.snd h
      rw [mapGet_cons, if_pos hk.symm, hv]
    · have hne : ¬ k' = k := by
        intro hkk
        subst hkk
        have hmem : k' ∈ rest.map (fun e => e.1) := List.mem_map.mpr ⟨(k', v), h, rfl⟩
        exact (List.nodup_cons.mp hm).1 hmem
      rw [mapGet_cons, if_neg hne]
      exact ih (List.nodup_cons.mp hm).2 k v h

theorem mapGet_none_not_mem {κ ν : Type} [DecidableEq κ] (m : List (κ × ν)) (k : κ)
    (h : mapGet m k = none) : ∀ e ∈ m, ¬ e.1 = k := by
  intro e he hk
  rw [mapGet] at h
  rcases hf : m.find? (fun p => decide (p.1 = k)) with _ | p
  · have := List.find?_eq_none.mp hf e he
    simp [hk] at this
  · rw [hf] at h
    simp at h

theorem mapSet_mem {κ ν : Type} [DecidableEq κ] (m : List (κ × ν)) (k : κ) (v : ν) :
    ∀ e ∈ mapSet m k v, e ∈ m ∨ e = (k, v) := by
  induction m with
  | nil =>
    intro e he
    right
    simpa [mapSet] using he
  | cons p rest ih =>
    intro e he
    rcases p with ⟨k', v'⟩
    rw [mapSet] at he
    by_cases hk : k' = k
    · rw [if_pos hk] at he
      rcases List.mem_cons.mp he with h | h
      · right; exact h
      · left; exact List.mem_cons_of_mem _ h
    · rw [if_neg hk] at he
      rcases List.mem_cons.mp he with h | h
      · left; rw [h]; exact List.mem_cons_self _ _
      · rcases ih e h with h' | h'
        · left; exact List.mem_cons_of_mem _ h'
        · right; exact h'

theorem mapSet_keys_some {κ ν : Type} [DecidableEq κ] (m : List (κ × ν)) (k : κ) (v : ν)
    (h : (mapGet m k).isSome) :
    (mapSet m k v).map (fun e => e.1) = m.map (fun e => e.1) := by
  induction m with
  | nil => simp [mapGet] at h
  | cons p rest ih =>
    rcases p with ⟨k', v'⟩
    rw [mapSet]
    by_cases hk : k' = k
    · rw [if_pos hk]
      simp [hk]
    · rw [if_neg hk]
      rw [mapGet_cons, if_neg hk] at h
      simp only [List.map_cons]
      rw [ih h]

theorem WFGeom_mk (w h cs : ℚ) : WFGeom (mkSpatialIndex w h cs) := by
  rw [WFGeom, mkSpatialIndex]
  have hcs : (0 : ℚ) < max 1 (jsOr cs 50) := lt_of_lt_of_le one_pos (le_max_left _ _)
  have hw : (1 : ℚ) ≤ max 1 (jsOr w 800) := le_max_left _ _
  have hh : (1 : ℚ) ≤ max 1 (jsOr h 600) := le_max_left _ _
  refine ⟨hcs, ?_, ?_, ?_, ?_⟩
  · have h1 : max 1 (jsOr w 800) / max 1 (jsOr cs 50) ≤
        (⌈max 1 (jsOr w 800) / max 1 (jsOr cs 50)⌉ : ℚ) := Int.le_ceil _
    rw [div_le_iff₀ hcs] at h1
    exact h1
  · have h1 : max 1 (jsOr h 600) / max 1 (jsOr cs 50) ≤
        (⌈max 1 (jsOr h 600) / max 1 (jsOr cs 50)⌉ : ℚ) := Int.le_ceil _
    rw [div_le_iff₀ hcs] at h1
    exact h1
  · have : (0 : ℚ) < max 1 (jsOr w 800) / max 1 (jsOr cs 50) :=
      div_pos (lt_of_lt_of_le one_pos hw) hcs
    exact Int.ceil_pos.mpr this
  · have : (0 : ℚ) < max 1 (jsOr h 600) / max 1 (jsOr cs 50) :=
      div_pos (lt_of_lt_of_le one_pos hh) hcs
    exact Int.ceil_pos.mpr this

theorem WFGrid_of_fields (s t : SpatialIndex)
    (hw : t.width = s.width) (hh : t.height = s.height) (hcs : t.cellSize = s.cellSize)
    (hgw : t.gridWidth = s.gridWidth) (hgh : t.gridHeight = s.gridHeight)
    (hnd : (t.grid.map (fun e => e.1)).Nodup)
    (hcell : ∀ kc ∈ t.grid, ∀ it ∈ kc.2, ∃ kc' ∈ s.grid, kc'.1 = kc.1 ∧ it ∈ kc'.2)
    (hwf : WFGrid s) : WFGrid t := by
  refine ⟨hnd, ?_⟩
  intro kc hkc it hit
  obtain ⟨kc', hkc', hkey, hit'⟩ := hcell kc hkc it hit
  obtain ⟨p, hvp, hb, hk⟩ := hwf.2 kc' hkc' it hit'
  refine ⟨p, hvp, ?_, ?_⟩
  · rw [hw, hh]
    exact hb
  · have hgg : getGridKey t p.1 p.2 = getGridKey s p.1 p.2 := by
      rw [getGridKey, getGridKey, hcs, hgw, hgh]
    rw [hgg, ← hkey]
    exact hk

theorem removeCellStep_some (i : ℕ) (kc e : (ℤ × ℤ) × List Item)
    (h : removeCellStep i kc = some e) : e.1 = kc.1 ∧ ∀ it ∈ e.2, it ∈ kc.2 := by
  simp only [removeCellStep] at h
  split at h
  · exact Option.noConfusion h
  · have he := Option.some_inj.mp h
    rw [← he]
    refine ⟨rfl, ?_⟩
    intro it hit
    exact List.mem_of_mem_filter hit

theorem filterMap_removeCellStep_keys (i : ℕ) :
    ∀ g : List ((ℤ × ℤ) × List Item),
      ((g.filterMap (removeCellStep i)).map (fun e => e.1)).Sublist
        (g.map (fun e => e.1)) := by
  intro g
  induction g with
  | nil => simp
  | cons kc rest ih =>
    rw [List.filterMap_cons]
    rcases hs : removeCellStep i kc with _ | e
    · simp only [List.map_cons]
      exact ih.cons _
    · simp only [List.map_cons]
      have he1 : e.1 = kc.1 := (removeCellStep_some i kc e hs).1
      rw [he1]
      exact ih.cons₂ _

theorem SIInv_clear (s0 t : SpatialIndex) (h : SIInv s0 t) : SIInv s0 (clearQueryCache t) := by
  obtain ⟨hw, hh, hcs, hgw, hgh, hqc, hwf⟩ := h
  refine ⟨hw, hh, hcs, hgw, hgh, rfl, ?_⟩
  exact WFGrid_of_fields t (clearQueryCache t) rfl rfl rfl rfl rfl hwf.1
    (fun kc hkc it hit => ⟨kc, hkc, rfl, hit⟩) hwf

theorem SIInv_remove_core (s0 s : SpatialIndex) (hinv : SIInv s0 s) (i : ℕ) (n : ℕ) :
    SIInv s0 { s with grid := s.grid.filterMap (removeCellStep i), itemCount := n } := by
  obtain ⟨hw, hh, hcs, hgw, hgh, hqc, hwf⟩ := hinv
  refine ⟨hw, hh, hcs, hgw, hgh, hqc, ?_⟩
  refine WFGrid_of_fields s _ rfl rfl rfl rfl rfl ?_ ?_ hwf
  · exact (filterMap_removeCellStep_keys i s.grid).nodup hwf.1
  · intro kc hkc it hit
    obtain ⟨kc', hkc', hstep⟩ := List.mem_filterMap.mp hkc
    obtain ⟨hkey, hsub⟩ := removeCellStep_some i kc' kc hstep
    exact ⟨kc', hkc', hkey.symm, hsub it hit⟩

theorem SIInv_remove (s0 s : SpatialIndex) (hinv : SIInv s0 s) (i : ℕ) :
    SIInv s0 (remove s i).2 := by
  simp only [remove]
  split
  · exact SIInv_remove_core s0 s hinv i _
  · exact SIInv_clear s0 _ (SIInv_remove_core s0 s hinv i _)

theorem SIInv_insert_core (s0 s1 : SpatialIndex) (hinv : SIInv s0 s1) (item : Item) (x y : ℚ)
    (hvp : item.validPos = some (x, y)) (hx0 : 0 ≤ x) (hx1 : x < s0.width)
    (hy0 : 0 ≤ y) (hy1 : y < s0.height) (n : ℕ) :
    SIInv s0 { s1 with
                grid := mapSet s1.grid (getGridKey s1 x y)
                  (((mapGet s1.grid (getGridKey s1 x y)).getD []) ++ [item]),
                itemCount := n } := by
  obtain ⟨hw, hh, hcs, hgw, hgh, hqc, hwf⟩ := hinv
  refine ⟨hw, hh, hcs, hgw, hgh, hqc, ?_, ?_⟩
  · show (List.map (fun e => e.1) (mapSet s1.grid (getGridKey s1 x y) _)).Nodup
    rcases hget : mapGet s1.grid (getGridKey s1 x y) with _ | c
    · rw [mapSet_fresh _ _ _ hget, List.map_append]
      rw [List.nodup_append]
      refine ⟨hwf.1, by simp, ?_⟩
      intro a ha hb
      have hb' : a = getGridKey s1 x y := by simpa using hb
      subst hb'
      rcases List.mem_map.mp ha with ⟨e, he, hek⟩
      exact mapGet_none_not_mem s1.grid _ hget e he hek
    · exact (mapSet_keys_some s1.grid _ _ (by rw [hget]; rfl)).symm ▸ hwf.1
  · intro kc hkc it hit
    rcases mapSet_mem _ _ _ kc hkc with hmem | heq
    · exact hwf.2 kc hmem it hit
    · subst heq
      rcases List.mem_append.mp hit with hc | hi
      · rcases hget : mapGet s1.grid (getGridKey s1 x y) with _ | c
        · rw [hget] at hc
          simp at hc
        · rw [hget] at hc
          simp only [Option.getD_some] at hc
          exact hwf.2 (getGridKey s1 x y, c) (mem_of_mapGet hget) it hc
      · have hi' : it = item := by simpa using hi
        subst hi'
        refine ⟨(x, y), hvp, ⟨hx0, ?_, hy0, ?_⟩, rfl⟩
        · show x < s1.width
          rw [hw]
          exact hx1
        · show y < s1.height
          rw [hh]
          exact hy1

theorem SIInv_insert (s0 s : SpatialIndex) (hinv : SIInv s0 s) (item : Item)
    (hval : opValid s0 (SIOp.ins item)) : SIInv s0 (SpatialIndex.insert s item).2 := by
  obtain ⟨x, y, hpos, hx0, hx1, hy0, hy1⟩ := hval
  have hvp : item.validPos = some (x, y) := by rw [Item.validPos, hpos]
  simp only [SpatialIndex.insert, hpos]
  rcases hid : item.id with _ | i
  · simp only [hid]
    exact SIInv_clear s0 _ (SIInv_insert_core s0 s hinv item x y hvp hx0 hx1 hy0 hy1 _)
  · simp only [hid]
    split
    · exact SIInv_clear s0 _
        (SIInv_insert_core s0 _ (SIInv_remove s0 s hinv i) item x y hvp hx0 hx1 hy0 hy1 _)
    · exact SIInv_clear s0 _ (SIInv_insert_core s0 s hinv item x y hvp hx0 hx1 hy0 hy1 _)

theorem SIInv_fold (s0 : SpatialIndex) (ops : List SIOp)
    (hops : ∀ op ∈ ops, SIMut op ∧ opValid s0 op) :
    ∀ s : SpatialIndex, SIInv s0 s → SIInv s0 (ops.foldl applyOp s) := by
  induction ops with
  | nil =>
    intro s hs
    exact hs
  | cons op rest ih =>
    intro s hs
    rw [List.foldl_cons]
    have hop := hops op (by simp)
    have hrest : ∀ op ∈ rest, SIMut op ∧ opValid s0 op :=
      fun op' hop' => hops op' (by simp [hop'])
    rcases op with item | i | ⟨x, y, r⟩
    · exact ih hrest _ (SIInv_insert s0 s hs item hop.2)
    · exact ih hrest _ (SIInv_remove s0 s hs i)
    · exact absurd hop.1 (by simp [SIMut])

theorem SIInv_mk (w h cs : ℚ) : SIInv (mkSpatialIndex w h cs) (mkSpatialIndex w h cs) := by
  refine ⟨rfl, rfl, rfl, rfl, rfl, rfl, ?_, ?_⟩
  · show (List.map (fun e => e.1) ([] : List ((ℤ × ℤ) × List Item))).Nodup
    simp
  · intro kc hkc
    exact absurd hkc (by simp [mkSpatialIndex])

theorem query_empty_cache (s : SpatialIndex) (hq : s.queryCache = []) (x y r : ℚ)
    (hr : 0 ≤ r) :
    (query s (some (some x, some y)) (some r)).1 = performQuery s x y r := by
  simp only [query]
  rw [if_neg (not_lt.mpr hr), hq]
  rfl

theorem floor_cell_bounds (cs wq q : ℚ) (gw : ℤ) (hcs : 0 < cs) (h0 : 0 ≤ q) (h1 : q < wq)
    (hw : wq ≤ gw * cs) : 0 ≤ ⌊q / cs⌋ ∧ ⌊q / cs⌋ ≤ gw - 1 := by
  constructor
  · exact Int.floor_nonneg.mpr (div_nonneg h0 hcs.le)
  · have hlt : q / cs < (gw : ℚ) := by
      rw [div_lt_iff₀ hcs]
      exact lt_of_lt_of_le h1 hw
    have hfl := Int.floor_lt.mpr hlt
    omega

theorem floor_interval (cs x q r : ℚ) (hcs : 0 < cs) (h1 : x - r ≤ q) (h2 : q ≤ x + r) :
    ⌊x / cs⌋ - ⌈r / cs⌉ ≤ ⌊q / cs⌋ ∧ ⌊q / cs⌋ ≤ ⌊x / cs⌋ + ⌈r / cs⌉ := by
  constructor
  · calc ⌊x / cs⌋ - ⌈r / cs⌉ ≤ ⌊x / cs - r / cs⌋ := floor_sub_ceil_le _ _
      _ = ⌊(x - r) / cs⌋ := by rw [sub_div]
      _ ≤ ⌊q / cs⌋ := Int.floor_le_floor (by gcongr)
  · calc ⌊q / cs⌋ ≤ ⌊(x + r) / cs⌋ := Int.floor_le_floor (by gcongr)
      _ = ⌊x / cs + r / cs⌋ := by rw [add_div]
      _ ≤ ⌊x / cs⌋ + ⌈r / cs⌉ := floor_add_le_ceil _ _

theorem performQuery_mem_iff (s : SpatialIndex) (hwf : WFGrid s) (hgeom : WFGeom s)
    (x y r : ℚ) (hr : 0 ≤ r) (it : Item) :
    it ∈ performQuery s x y r ↔
      it ∈ allItems s ∧ ∃ p, it.validPos = some p ∧ (p.1 - x)^2 + (p.2 - y)^2 ≤ r^2 := by
  obtain ⟨hcs, hwbound, hhbound, hgw1, hgh1⟩ := hgeom
  constructor
  · intro h
    refine ⟨performQuery_subset s x y r it h, ?_⟩
    simp only [performQuery, List.mem_flatMap] at h
    obtain ⟨gx, hgx, gy, hgy, hcell⟩ := h
    rcases hmg : mapGet s.grid (gx, gy) with _ | items
    · rw [hmg] at hcell
      simp at hcell
    · rw [hmg] at hcell
      have hpred := List.of_mem_filter hcell
      rcases hvp : it.validPos with _ | p
      · rw [hvp] at hpred
        simp at hpred
      · rw [hvp] at hpred
        exact ⟨p, rfl, of_decide_eq_true hpred⟩
  · rintro ⟨hmem, p, hvp, hdist⟩
    rw [allItems, List.mem_flatMap] at hmem
    obtain ⟨kc, hkc, hit⟩ := hmem
    rcases kc with ⟨key, cell⟩
    obtain ⟨p', hvp', hb, hkey⟩ := hwf.2 (key, cell) hkc it hit
    have hpp : p' = p := by
      rw [hvp] at hvp'
      exact Option.some_inj.mp hvp'.symm
    subst hpp
    obtain ⟨hpx0, hpx1, hpy0, hpy1⟩ := hb
    have hd1 : (p'.1 - x)^2 ≤ r^2 := le_trans (le_add_of_nonneg_right (sq_nonneg _)) hdist
    have hd2 : (p'.2 - y)^2 ≤ r^2 := le_trans (le_add_of_nonneg_left (sq_nonneg _)) hdist
    have ha1 : |p'.1 - x| ≤ r := abs_le_of_sq_le_sq hd1 hr
    have ha2 : |p'.2 - y| ≤ r := abs_le_of_sq_le_sq hd2 hr
    obtain ⟨hi1, hi2⟩ := abs_le.mp ha1
    obtain ⟨hi3, hi4⟩ := abs_le.mp ha2
    have hfx := floor_cell_bounds s.cellSize s.width p'.1 s.gridWidth hcs hpx0 hpx1 hwbound
    have hfy := floor_cell_bounds s.cellSize s.height p'.2 s.gridHeight hcs hpy0 hpy1 hhbound
    have hix := floor_interval s.cellSize x p'.1 r hcs (by linarith) (by linarith)
    have hiy := floor_interval s.cellSize y p'.2 r hcs (by linarith) (by linarith)
    have hkx : key.1 = ⌊p'.1 / s.cellSize⌋ := by
      have h1 := congrArg Prod.fst hkey
      rw [getGridKey] at h1
      simp only [] at h1
      rw [h1]
      omega
    have hky : key.2 = ⌊p'.2 / s.cellSize⌋ := by
      have h1 := congrArg Prod.snd hkey
      rw [getGridKey] at h1
      simp only [] at h1
      rw [h1]
      omega
    simp only [performQuery, List.mem_flatMap]
    refine ⟨⌊p'.1 / s.cellSize⌋, ?_, ⌊p'.2 / s.cellSize⌋, ?_, ?_⟩
    · apply mem_intRange
      · omega
      · omega
    · apply mem_intRange
      · omega
      · omega
    · have hget : mapGet s.grid (⌊p'.1 / s.cellSize⌋, ⌊p'.2 / s.cellSize⌋) = some cell := by
        rw [← hkx, ← hky]
        exact mapGet_of_mem_nodup s.grid hwf.1 key cell hkc
      rw [hget]
      apply List.mem_filter.mpr
      refine ⟨hit, ?_⟩
      rw [hvp]
      exact decide_eq_true hdist

theorem WFGeom_of_inv (s0 s : SpatialIndex) (hw : s.width = s0.width)
    (hh : s.height = s0.height) (hcs : s.cellSize = s0.cellSize)
    (hgw : s.gridWidth = s0.gridWidth) (hgh : s.gridHeight = s0.gridHeight)
    (hg : WFGeom s0) : WFGeom s := by
  obtain ⟨h1, h2, h3, h4, h5⟩ := hg
  refine ⟨?_, ?_, ?_, ?_, ?_⟩
  · rw [hcs]
    exact h1
  · rw [hw, hgw, hcs]
    exact h2
  · rw [hh, hgh, hcs]
    exact h3
  · rw [hgw]
    exact h4
  · rw [hgh]
    exact h5

/-- C1 (amended): for every sequence of successful insert/remove operations
whose inserted items carry numeric positions inside the canvas rectangle,
and every query at a numeric position with a nonnegative radius, `query`
returns exactly the currently-indexed items within Euclidean distance
`radius` of the position (squared-distance formulation).  The original
claim's allowance for out-of-canvas item positions is refuted by `C1_cex`. -/
theorem C1_query_exact (w h cs : ℚ) (ops : List SIOp)
    (hops : ∀ op ∈ ops, SIMut op ∧ opValid (mkSpatialIndex w h cs) op)
    (x y r : ℚ) (hr : 0 ≤ r) (it : Item) :
    it ∈ (query (ops.foldl applyOp (mkSpatialIndex w h cs))
        (some (some x, some y)) (some r)).1 ↔
      it ∈ allItems (ops.foldl applyOp (mkSpatialIndex w h cs)) ∧
        ∃ p, it.validPos = some p ∧ (p.1 - x)^2 + (p.2 - y)^2 ≤ r^2 := by
  have hinv := SIInv_fold (mkSpatialIndex w h cs) ops hops
    (mkSpatialIndex w h cs) (SIInv_mk w h cs)
  obtain ⟨hw, hh, hcs, hgw, hgh, hqc, hwf⟩ := hinv
  rw [query_empty_cache _ hqc x y r hr]
  exact performQuery_mem_iff _ hwf
    (WFGeom_of_inv (mkSpatialIndex w h cs) _ hw hh hcs hgw hgh (WFGeom_mk w h cs))
    x y r hr it


theorem C1_query_exact_witness :
    (0 : ℚ) ≤ 5 ∧
      (nearItem ∈ (query ([SIOp.ins nearItem].foldl applyOp (mkSpatialIndex 800 600 50))
          (some (some 10, some 10)) (some 5)).1 ↔
        nearItem ∈ allItems ([SIOp.ins nearItem].foldl applyOp (mkSpatialIndex 800 600 50)) ∧
          ∃ p, nearItem.validPos = some p ∧ (p.1 - 10)^2 + (p.2 - 10)^2 ≤ 5^2) := by
  refine ⟨by norm_num, ?_⟩
  apply C1_query_exact 800 600 50 [SIOp.ins nearItem] ?_ 10 10 5 (by norm_num) nearItem
  intro op hop
  have hop' : op = SIOp.ins nearItem := by simpa using hop
  subst hop'
  refine ⟨trivial, 10, 10, rfl, by norm_num, ?_, by norm_num, ?_⟩
  · show (10 : ℚ) < max 1 (jsOr 800 800)
    rw [jsOr]
    norm_num
  · show (10 : ℚ) < max 1 (jsOr 600 600)
    rw [jsOr]
    norm_num
